import Mathlib

/-!
Verification of the trusted-decoder core of the `blog_os` bootloader.

This development gives a shallow embedding of the two decoder families of the
repository — the BIOS "Enhanced Disk Drive" (EDD) decoder in
`src/bootloader/src/edd/mod.rs` and the ELF decoder in
`src/common/src/elf/{mod,header}.rs` together with the entry/iterator code in
`src/bootloader/src/elf/{program_header,section}.rs` — and proves or refutes
the specification's claims about them.

Conventions of the embedding:
* a byte buffer is a `List Nat`; well-formed buffers have every element < 256
  (stated as a hypothesis where a proof needs it);
* machine arithmetic is `Nat` with explicit `% 2 ^ w` at the points where the
  Rust code wraps (u8 wrapping adds in checksums, the u16 multiplication in
  the ELF table bound checks);
* fallible Rust paths (`TryFrom`, zerocopy `try_read_from_prefix`) become
  `Except`-valued functions; a Rust panic (an unchecked slice index) becomes a
  distinguished `panic` outcome;
* the one absolute-memory read of the EDD decoder (`resolve_fdbt`) takes an
  explicit memory map `mem : Nat → Nat`, following the spec's §5/§9 note that
  a hosted reimplementation must inject a memory accessor.
-/

namespace BlogOs

/-- Decidable equality on `Except`, needed to evaluate the decoders on
concrete inputs with `decide`. -/
instance {ε α : Type} [DecidableEq ε] [DecidableEq α] : DecidableEq (Except ε α) :=
  fun x y =>
    match x, y with
    | .error a, .error b =>
      if h : a = b then .isTrue (by rw [h]) else .isFalse (by simp [h])
    | .error _, .ok _ => .isFalse (by simp)
    | .ok _, .error _ => .isFalse (by simp)
    | .ok a, .ok b =>
      if h : a = b then .isTrue (by rw [h]) else .isFalse (by simp [h])

/-! ## Byte-buffer primitives -/

/-- Byte at index `i` of a buffer, `0` when out of range.  Every use below is
guarded by a length check mirroring the source, except the deliberately
unchecked indexes of `DriveParameters::try_from`, which are modelled by the
`panic` outcome instead. -/
def byteAt (l : List Nat) (i : Nat) : Nat := l.getD i 0

/-- Little-endian value of `len` bytes of `l` starting at offset `off`. -/
def readLE (l : List Nat) (off : Nat) : Nat → Nat
  | 0 => 0
  | len + 1 => byteAt l off + 256 * readLE l (off + 1) len

/-- Byte `i` of the little-endian encoding of `v` (Rust `to_le_bytes`). -/
def leByte (v i : Nat) : Nat := v / 256 ^ i % 256

/-- Big-endian value of a byte list (Rust `from_be_bytes`), used only inside
error payloads of the device-path decoder. -/
def beVal (l : List Nat) : Nat := l.foldl (fun a b => a * 256 + b) 0

/-- Rust `slice::starts_with` on byte lists. -/
def listStartsWith (l p : List Nat) : Bool := l.take p.length == p

/-- The 8-bit wrapping fold `iter().fold(0, |c, b| c.wrapping_add(b))` used by
both EDD checksums. -/
def checksum8 (l : List Nat) : Nat := l.foldl (fun c b => (c + b) % 256) 0

/-- Bit-flag test of the `make_flags!`/`make_bitmap!` newtypes:
`self.0 & (flag as repr) != 0`. -/
def flagIsSet (flags v : Nat) : Bool := flags &&& v != 0

/-! ## Error taxonomy

Mirrors `Reason`/`Kind` of the bootloader error module and the EDD `Facility`
(`src/bootloader/src/error.rs`, `src/bootloader/src/edd/error.rs`); the
`InvalidValuesForReservedBits` reason appears at its EDD use sites and in the
spec's §7 taxonomy.  The `Context` component is always `Parsing` in the
decoder core and is omitted. -/

inductive Reason where
  | InvalidValue (v : Nat)
  | UnsupportedEndianness
  | InvalidValuesForReservedBits
  | InvalidValueForType (value : Nat)
  | InvalidSizeForType (size : Nat)
  | InvalidAddressForType (address : Nat)
  deriving DecidableEq

inductive Kind where
  | CantReadField (name : String) (r : Reason)
  | CantFit (name : String)
  | Generic (r : Reason)
  deriving DecidableEq

inductive EddFacility where
  | DriveParameters
  | DevicePathInformation
  | FixedDiskParameterTable
  deriving DecidableEq

/-- An EDD-side `InternalError` (facility + kind; context always `Parsing`). -/
structure EddError where
  facility : EddFacility
  kind : Kind
  deriving DecidableEq

/-- Error produced by `try_read_error` when zerocopy's
`try_read_from_prefix` fails for lack of bytes: `Generic(InvalidSizeForType)`
carrying the source-slice length. -/
def tryReadSizeError (f : EddFacility) (sz : Nat) : EddError :=
  ⟨f, .Generic (.InvalidSizeForType sz)⟩

/-! ## EDD raw records (`#[derive(TryFromBytes)] #[repr(C)]`, zerocopy
little-endian fields, alignment 1) -/

/-- `DriveParametersRaw`: 30 bytes. -/
structure DriveParametersRaw where
  buffer_size : Nat
  information_flags : Nat
  cylinders : Nat
  heads : Nat
  sectors_per_track : Nat
  sectors : Nat
  bytes_per_sector : Nat
  configuration_parameters : Nat
  deriving DecidableEq

/-- `DriveParametersRaw::try_read_from_prefix`: all fields are plain integers,
so the read fails only when fewer than 30 bytes are available. -/
def DriveParametersRaw.tryReadPfx (l : List Nat) : Except EddError DriveParametersRaw :=
  if l.length < 30 then .error (tryReadSizeError .DriveParameters l.length)
  else .ok
    { buffer_size := readLE l 0 2
      information_flags := readLE l 2 2
      cylinders := readLE l 4 4
      heads := readLE l 8 4
      sectors_per_track := readLE l 12 4
      sectors := readLE l 16 8
      bytes_per_sector := readLE l 24 2
      configuration_parameters := readLE l 26 4 }

/-- `DevicePathInformationRaw`: 36 bytes. -/
structure DevicePathInformationRaw where
  bedd : Nat
  length : Nat
  reserved_1 : Nat
  reserved_2 : Nat
  host_bus_type : List Nat
  interface_type : List Nat
  interface_path : Nat
  device_path : Nat
  reserved_3 : Nat
  checksum : Nat
  deriving DecidableEq

/-- `DevicePathInformationRaw::try_read_from_prefix` (36 bytes needed). -/
def DevicePathInformationRaw.tryReadPfx (l : List Nat) :
    Except EddError DevicePathInformationRaw :=
  if l.length < 36 then .error (tryReadSizeError .DevicePathInformation l.length)
  else .ok
    { bedd := readLE l 0 2
      length := byteAt l 2
      reserved_1 := byteAt l 3
      reserved_2 := readLE l 4 2
      host_bus_type := [byteAt l 6, byteAt l 7, byteAt l 8, byteAt l 9]
      interface_type := [byteAt l 10, byteAt l 11, byteAt l 12, byteAt l 13,
                         byteAt l 14, byteAt l 15, byteAt l 16, byteAt l 17]
      interface_path := readLE l 18 8
      device_path := readLE l 26 8
      reserved_3 := byteAt l 34
      checksum := byteAt l 35 }

/-- `FixedDiskParameterTableRaw`: 16 bytes. -/
structure FixedDiskParameterTableRaw where
  io_port_base : Nat
  control_port_base : Nat
  head_pfx : Nat
  internal : Nat
  irq : Nat
  sector_count : Nat
  dma_channel_type : Nat
  pio_type : Nat
  hardware_specific_option_flags : Nat
  unused : Nat
  extension_revision : Nat
  checksum : Nat
  deriving DecidableEq

/-- `FixedDiskParameterTableRaw::try_read_from_prefix` (16 bytes needed). -/
def FixedDiskParameterTableRaw.tryReadPfx (l : List Nat) :
    Except EddError FixedDiskParameterTableRaw :=
  if l.length < 16 then .error (tryReadSizeError .FixedDiskParameterTable l.length)
  else .ok
    { io_port_base := readLE l 0 2
      control_port_base := readLE l 2 2
      head_pfx := byteAt l 4
      internal := byteAt l 5
      irq := byteAt l 6
      sector_count := byteAt l 7
      dma_channel_type := byteAt l 8
      pio_type := byteAt l 9
      hardware_specific_option_flags := readLE l 10 2
      unused := readLE l 12 2
      extension_revision := byteAt l 14
      checksum := byteAt l 15 }

/-! ## EDD decoded entities -/

inductive HostBus where
  | Pci (bus slot function : Nat)
  | Isa (base_address : Nat)
  deriving DecidableEq

inductive Interface where
  | Ata (is_slave : Bool)
  | Atapi (is_slave : Bool) (logical_unit_number : Nat)
  | Scsi (logical_unit_number : Nat)
  | Usb (tbd : Nat)
  | Ieee1394 (guid : Nat)
  | Fibre (wwn : Nat)
  deriving DecidableEq

structure DevicePathInformation where
  host_bus : HostBus
  interface : Interface
  deriving DecidableEq

/-- ASCII host-bus tag `b"PCI"`. -/
def pciTag : List Nat := [0x50, 0x43, 0x49]

/-- ASCII host-bus tag `b"ISA"`. -/
def isaTag : List Nat := [0x49, 0x53, 0x41]

/-- ASCII interface tag `b"ATA"`. -/
def ataTag : List Nat := [0x41, 0x54, 0x41]

/-- ASCII interface tag `b"ATAPI"`. -/
def atapiTag : List Nat := [0x41, 0x54, 0x41, 0x50, 0x49]

/-- ASCII interface tag `b"SCSI"`. -/
def scsiTag : List Nat := [0x53, 0x43, 0x53, 0x49]

/-- ASCII interface tag `b"USB"`. -/
def usbTag : List Nat := [0x55, 0x53, 0x42]

/-- ASCII interface tag `b"1394"`. -/
def ieee1394Tag : List Nat := [0x31, 0x33, 0x39, 0x34]

/-- ASCII interface tag `b"FIBRE"`. -/
def fibreTag : List Nat := [0x46, 0x49, 0x42, 0x52, 0x45]

/-- Host-bus arm of `TryFrom<&DevicePathInformationRaw>`: match on the 4-byte
tag (`starts_with`), then enforce the zero checks on the trailing bytes of the
little-endian `interface_path` field exactly as the source does. -/
def hostBusOf (value : DevicePathInformationRaw) : Except EddError HostBus :=
  if listStartsWith value.host_bus_type pciTag then
    if (List.range 5).all (fun k => leByte value.interface_path (3 + k) == 0) then
      .ok (.Pci (leByte value.interface_path 0) (leByte value.interface_path 1)
        (leByte value.interface_path 2))
    else
      .error ⟨.DevicePathInformation,
        .CantReadField "PCI interface path reserved bytes" .InvalidValuesForReservedBits⟩
  else if listStartsWith value.host_bus_type isaTag then
    if (List.range 6).all (fun k => leByte value.interface_path (2 + k) == 0) then
      .ok (.Isa (value.interface_path % 65536))
    else
      .error ⟨.DevicePathInformation,
        .CantReadField "ISA interface path reserved bytes" .InvalidValuesForReservedBits⟩
  else
    .error ⟨.DevicePathInformation,
      .CantReadField "host bus type" (.InvalidValue (beVal value.host_bus_type))⟩

/-- Interface arm of `TryFrom<&DevicePathInformationRaw>`.  The source's match
arms are ordered: `b"ATA"` is tested before `b"ATAPI"` (so a tag starting with
"ATAPI" is captured by the ATA arm), and the `1394`/`FIBRE` arms perform no
zero check on the unused `device_path` bytes. -/
def interfaceOf (value : DevicePathInformationRaw) : Except EddError Interface :=
  if listStartsWith value.interface_type ataTag then
    if (List.range 7).all (fun k => leByte value.device_path (1 + k) == 0) then
      .ok (.Ata (leByte value.device_path 0 == 1))
    else
      .error ⟨.DevicePathInformation,
        .CantReadField "ATA device path reserved bytes" .InvalidValuesForReservedBits⟩
  else if listStartsWith value.interface_type atapiTag then
    if (List.range 6).all (fun k => leByte value.device_path (2 + k) == 0) then
      .ok (.Atapi (leByte value.device_path 0 == 1) (leByte value.device_path 1))
    else
      .error ⟨.DevicePathInformation,
        .CantReadField "ATAPI device path reserved bytes" .InvalidValuesForReservedBits⟩
  else if listStartsWith value.interface_type scsiTag then
    if (List.range 7).all (fun k => leByte value.device_path (1 + k) == 0) then
      .ok (.Scsi (leByte value.device_path 0))
    else
      .error ⟨.DevicePathInformation,
        .CantReadField "SCSI device path reserved bytes" .InvalidValuesForReservedBits⟩
  else if listStartsWith value.interface_type usbTag then
    if (List.range 7).all (fun k => leByte value.device_path (1 + k) == 0) then
      .ok (.Usb (leByte value.device_path 0))
    else
      .error ⟨.DevicePathInformation,
        .CantReadField "USB device path reserved bytes" .InvalidValuesForReservedBits⟩
  else if listStartsWith value.interface_type ieee1394Tag then
    .ok (.Ieee1394 value.device_path)
  else if listStartsWith value.interface_type fibreTag then
    .ok (.Fibre (leByte value.device_path 0))
  else
    .error ⟨.DevicePathInformation,
      .CantReadField "interface type" (.InvalidValue (beVal value.interface_type))⟩

/-- `TryFrom<&DevicePathInformationRaw> for DevicePathInformation`
(edd/mod.rs lines 207-342). -/
def DevicePathInformation.tryFromRaw (value : DevicePathInformationRaw) :
    Except EddError DevicePathInformation :=
  match hostBusOf value with
  | .error e => .error e
  | .ok host_bus =>
    match interfaceOf value with
    | .error e => .error e
    | .ok interface => .ok ⟨host_bus, interface⟩

/-- `TryFrom<&[u8]> for DevicePathInformation` (edd/mod.rs lines 146-205):
prefix read, signature, reserved fields, `length`, whole-record checksum, then
the raw-to-typed conversion. -/
def DevicePathInformation.tryFromBytes (l : List Nat) :
    Except EddError DevicePathInformation :=
  match DevicePathInformationRaw.tryReadPfx l with
  | .error e => .error e
  | .ok raw =>
    if raw.bedd ≠ 0xbedd then
      .error ⟨.DevicePathInformation, .CantReadField "bedd" (.InvalidValue raw.bedd)⟩
    else if raw.reserved_1 ≠ 0 ∨ raw.reserved_2 ≠ 0 ∨ raw.reserved_3 ≠ 0 then
      .error ⟨.DevicePathInformation, .CantReadField "bedd" .InvalidValuesForReservedBits⟩
    else if raw.length ≠ 36 then
      .error ⟨.DevicePathInformation, .CantReadField "length" (.InvalidValue raw.length)⟩
    else if (checksum8 (l.take 35) + raw.checksum) % 256 ≠ 0 then
      .error ⟨.DevicePathInformation, .CantReadField "checksum" (.InvalidValue raw.checksum)⟩
    else DevicePathInformation.tryFromRaw raw

/-! ## Fixed disk parameter table -/

/-- Decoded `FixedDiskParameterTable` (flag newtypes kept as raw `Nat`). -/
structure FixedDiskParameterTable where
  io_port_base : Nat
  control_port_base : Nat
  head_pfx : Nat
  irq : Nat
  sector_count : Nat
  dma_channel : Nat
  dma_type : Nat
  pio_type : Nat
  hardware_specific_option_flags : Nat
  extension_revision : Nat
  checksum : Nat
  deriving DecidableEq

/-- `HWSpecificOptionFlagType` bit values used by the validation. -/
def HWFlag.CHSTranslation : Nat := 0x8
def HWFlag.Atapi : Nat := 0x40
def HWFlag.AtapiUsesInterruptDRQ : Nat := 0x100
def HWFlag.TranslationTypeFirstBit : Nat := 0x200
def HWFlag.TranslationTypeSecondBit : Nat := 0x400

/-- `TryFrom<&FixedDiskParameterTableRaw> for FixedDiskParameterTable`
(edd/mod.rs lines 650-734): extension revision, head-register mask
`value.head_prefix & 0b10001111 == 0b10000000`, irq/pio nibble checks, and the
hardware-flag implications. -/
def FixedDiskParameterTable.tryFromRaw (value : FixedDiskParameterTableRaw) :
    Except EddError FixedDiskParameterTable :=
  if value.extension_revision ≠ 0x11 then
    .error ⟨.FixedDiskParameterTable,
      .CantReadField "extension_revision" (.InvalidValue value.extension_revision)⟩
  else if value.head_pfx &&& 0b10001111 ≠ 0b10000000 then
    .error ⟨.FixedDiskParameterTable,
      .CantReadField "head_prefix" (.InvalidValue value.head_pfx)⟩
  else if value.irq &&& 0xf0 ≠ 0 then
    .error ⟨.FixedDiskParameterTable, .CantReadField "irq" (.InvalidValue value.irq)⟩
  else if value.pio_type &&& 0xf0 ≠ 0 then
    .error ⟨.FixedDiskParameterTable, .CantReadField "pio_type" (.InvalidValue value.pio_type)⟩
  else if flagIsSet value.hardware_specific_option_flags HWFlag.Atapi ∧
      ¬ flagIsSet value.hardware_specific_option_flags HWFlag.AtapiUsesInterruptDRQ then
    .error ⟨.FixedDiskParameterTable,
      .CantReadField "hardware_specific_option_flags"
        (.InvalidValue value.hardware_specific_option_flags)⟩
  else if ¬ flagIsSet value.hardware_specific_option_flags HWFlag.CHSTranslation ∧
      (flagIsSet value.hardware_specific_option_flags HWFlag.TranslationTypeFirstBit ∨
       flagIsSet value.hardware_specific_option_flags HWFlag.TranslationTypeSecondBit) then
    .error ⟨.FixedDiskParameterTable,
      .CantReadField "hardware_specific_option_flags"
        (.InvalidValue value.hardware_specific_option_flags)⟩
  else
    .ok
      { io_port_base := value.io_port_base
        control_port_base := value.control_port_base
        head_pfx := value.head_pfx
        irq := value.irq
        sector_count := value.sector_count
        dma_channel := value.dma_channel_type &&& 0xf
        dma_type := value.dma_channel_type / 16
        pio_type := value.pio_type
        hardware_specific_option_flags := value.hardware_specific_option_flags
        extension_revision := value.extension_revision
        checksum := value.checksum }

/-- `TryFrom<&[u8]> for FixedDiskParameterTable` (edd/mod.rs lines 623-648):
prefix read, whole-record checksum first, then the raw conversion. -/
def FixedDiskParameterTable.tryFromBytes (l : List Nat) :
    Except EddError FixedDiskParameterTable :=
  match FixedDiskParameterTableRaw.tryReadPfx l with
  | .error e => .error e
  | .ok raw =>
    if (checksum8 (l.take 15) + raw.checksum) % 256 ≠ 0 then
      .error ⟨.FixedDiskParameterTable, .CantReadField "checksum" (.InvalidValue raw.checksum)⟩
    else FixedDiskParameterTable.tryFromRaw raw

/-! ## Drive parameters -/

/-- `InfoFlagType` bit values used by the validation. -/
def InfoFlag.SuppliedGeometryValid : Nat := 0x2
def InfoFlag.Removable : Nat := 0x4
def InfoFlag.SupportsLineChange : Nat := 0x10
def InfoFlag.Lockable : Nat := 0x20
def InfoFlag.NoMediaPresent : Nat := 0x40

/-- Decoded `DriveParameters`. -/
structure DriveParameters where
  buffer_size : Nat
  information_flags : Nat
  cylinders : Nat
  heads : Nat
  sectors_per_track : Nat
  sectors : Nat
  bytes_per_sector : Nat
  fixed_disk_parameter_table : Option FixedDiskParameterTable
  device_path_information : Option DevicePathInformation
  deriving DecidableEq

/-- `TryFrom<&DriveParametersRaw> for DriveParameters` (edd/mod.rs
lines 415-491): buffer size ∈ {26, 30}, geometry checks under
`SuppliedGeometryValid`, nonzero `bytes_per_sector`, and the
removable/line-change/lockable and no-media/removable implications. -/
def DriveParameters.tryFromRaw (value : DriveParametersRaw) :
    Except EddError DriveParameters :=
  if value.buffer_size ≠ 26 ∧ value.buffer_size ≠ 30 then
    .error ⟨.DriveParameters, .CantReadField "buffer size" (.InvalidValue value.buffer_size)⟩
  else if flagIsSet value.information_flags InfoFlag.SuppliedGeometryValid ∧
      value.cylinders = 0 then
    .error ⟨.DriveParameters, .CantReadField "cylinders" (.InvalidValue value.cylinders)⟩
  else if flagIsSet value.information_flags InfoFlag.SuppliedGeometryValid ∧
      value.heads = 0 then
    .error ⟨.DriveParameters, .CantReadField "heads" (.InvalidValue value.heads)⟩
  else if flagIsSet value.information_flags InfoFlag.SuppliedGeometryValid ∧
      value.sectors_per_track = 0 then
    .error ⟨.DriveParameters,
      .CantReadField "sectors_per_track" (.InvalidValue value.sectors_per_track)⟩
  else if value.bytes_per_sector = 0 then
    .error ⟨.DriveParameters,
      .CantReadField "bytes_per_sector" (.InvalidValue value.bytes_per_sector)⟩
  else if flagIsSet value.information_flags InfoFlag.Removable ∧
      ¬ flagIsSet value.information_flags InfoFlag.SupportsLineChange then
    .error ⟨.DriveParameters,
      .CantReadField "information_flags" (.InvalidValue value.information_flags)⟩
  else if flagIsSet value.information_flags InfoFlag.Removable ∧
      ¬ flagIsSet value.information_flags InfoFlag.Lockable then
    .error ⟨.DriveParameters,
      .CantReadField "information_flags" (.InvalidValue value.information_flags)⟩
  else if flagIsSet value.information_flags InfoFlag.NoMediaPresent ∧
      ¬ flagIsSet value.information_flags InfoFlag.Removable then
    .error ⟨.DriveParameters,
      .CantReadField "information_flags" (.InvalidValue value.information_flags)⟩
  else
    .ok
      { buffer_size := value.buffer_size
        information_flags := value.information_flags
        cylinders := value.cylinders
        heads := value.heads
        sectors_per_track := value.sectors_per_track
        sectors := value.sectors
        bytes_per_sector := value.bytes_per_sector
        fixed_disk_parameter_table := none
        device_path_information := none }

/-- `DriveParameters::resolve_fdbt` (edd/mod.rs lines 549-572).  `mem` is the
injected absolute-memory byte map standing in for the bare-metal
`core::slice::from_raw_parts` read of 16 bytes at the resolved linear
address. -/
def DriveParameters.resolveFdbt (mem : Nat → Nat) (self : DriveParameters)
    (fdbt_address : Nat) : Except EddError DriveParameters :=
  if fdbt_address = 0xffffffff then .ok self
  else if self.buffer_size ≠ 30 then
    .error ⟨.DriveParameters, .CantFit "fixed disk parameter table"⟩
  else
    match FixedDiskParameterTable.tryFromBytes
        ((List.range 16).map fun i =>
          mem ((fdbt_address / 65536) * 16 + fdbt_address % 65536 + i)) with
    | .error e => .error e
    | .ok fdpt => .ok { self with fixed_disk_parameter_table := some fdpt }

/-- Outcome of `DriveParameters::try_from(&[u8])`: typed success, typed error,
or a Rust panic from an unchecked slice index. -/
inductive EddResult where
  | ok (dp : DriveParameters)
  | err (e : EddError)
  | panic
  deriving DecidableEq

/-- `TryFrom<&[u8]> for DriveParameters` (edd/mod.rs lines 524-542): raw
prefix read, raw-record validation, optional FDPT resolution when the
configuration-parameters pointer is not the `0xFFFFFFFF` sentinel, then the
unchecked indexes `bytes[30]`, `bytes[31]` probing the device-path signature —
those two indexes panic (no bounds check in the source) whenever the buffer is
shorter than 32 bytes. -/
def DriveParameters.tryFrom (mem : Nat → Nat) (bytes : List Nat) : EddResult :=
  match DriveParametersRaw.tryReadPfx bytes with
  | .error e => .err e
  | .ok raw =>
    match DriveParameters.tryFromRaw raw with
    | .error e => .err e
    | .ok r0 =>
      match (if raw.configuration_parameters ≠ 0xffffffff then
          DriveParameters.resolveFdbt mem r0 raw.configuration_parameters
        else .ok r0) with
      | .error e => .err e
      | .ok r1 =>
        if bytes.length < 32 then .panic
        else if readLE bytes 30 2 = 0xbedd then
          match DevicePathInformation.tryFromBytes (bytes.drop 30) with
          | .error e => .err e
          | .ok dpi => .ok { r1 with device_path_information := some dpi }
        else .ok r1

/-! ## ELF model

Header and `File` from `src/common/src/elf/{header,mod}.rs`; table entries
and their iterators from `src/bootloader/src/elf/{program_header,section}.rs`
(the per-entry constants `ELF32_ENTRY_SIZE`/`ELF64_ENTRY_SIZE` are the sizes
of the packed raw entry records of those files). -/

inductive ElfClass where
  | Elf32
  | Elf64
  deriving DecidableEq

inductive Encoding where
  | LittleEndian
  | BigEndian
  deriving DecidableEq

/-- Fault taxonomy of the common error module as used by the ELF header
decoder (payloads that only echo Rust type names are dropped). -/
inductive ElfFault where
  | InvalidValueForField (name : String)
  | UnsupportedEndianness
  | InvalidValueForType
  | InvalidSizeForType (size : Nat)
  deriving DecidableEq

/-- `size_of::<Elf32Header>()` / `size_of::<Elf64Header>()` (the
`HEADER_SIZE` table). -/
def headerSize : ElfClass → Nat
  | .Elf32 => 52
  | .Elf64 => 64

/-- `program_header::ELF32_ENTRY_SIZE` / `ELF64_ENTRY_SIZE`. -/
def eszPH : ElfClass → Nat
  | .Elf32 => 32
  | .Elf64 => 56

/-- `section::ELF32_ENTRY_SIZE` / `ELF64_ENTRY_SIZE`. -/
def eszSH : ElfClass → Nat
  | .Elf32 => 40
  | .Elf64 => 64

/-- The 4-byte ELF magic `b"\x7fELF"`. -/
def elfMagic : List Nat := [0x7f, 0x45, 0x4c, 0x46]

/-- `ObjectType::try_from(u16)`: named enumerants 0–4 plus the OS-specific
(0xfe00–0xfeff) and processor-specific (0xff00–0xffff) ranges. -/
def objectTypeValid (v : Nat) : Bool := v ≤ 4 ∨ (0xfe00 ≤ v ∧ v ≤ 0xffff)

/-- Decoded `Header` with class-widened numeric fields, mirroring the
accessors of `src/common/src/elf/header.rs`. -/
structure ElfHeader where
  cls : ElfClass
  typ : Nat
  machine : Nat
  version : Nat
  entrypoint : Nat
  program_header_offset : Nat
  section_header_offset : Nat
  flags : Nat
  size : Nat
  program_header_entry_size : Nat
  program_header_entries : Nat
  section_header_entry_size : Nat
  section_header_entries : Nat
  string_table_index : Nat
  deriving DecidableEq

/-- Field extraction of the class-specific raw header records
(`inner::Elf32Header` / `inner::Elf64Header`, packed little-endian layout
after the 16-byte identifier). -/
def parseHeaderFields (l : List Nat) : ElfClass → ElfHeader
  | .Elf32 =>
    { cls := .Elf32
      typ := readLE l 16 2
      machine := readLE l 18 2
      version := readLE l 20 4
      entrypoint := readLE l 24 4
      program_header_offset := readLE l 28 4
      section_header_offset := readLE l 32 4
      flags := readLE l 36 4
      size := readLE l 40 2
      program_header_entry_size := readLE l 42 2
      program_header_entries := readLE l 44 2
      section_header_entry_size := readLE l 46 2
      section_header_entries := readLE l 48 2
      string_table_index := readLE l 50 2 }
  | .Elf64 =>
    { cls := .Elf64
      typ := readLE l 16 2
      machine := readLE l 18 2
      version := readLE l 20 4
      entrypoint := readLE l 24 8
      program_header_offset := readLE l 32 8
      section_header_offset := readLE l 40 8
      flags := readLE l 48 4
      size := readLE l 52 2
      program_header_entry_size := readLE l 54 2
      program_header_entries := readLE l 56 2
      section_header_entry_size := readLE l 58 2
      section_header_entries := readLE l 60 2
      string_table_index := readLE l 62 2 }

/-- `ElfIdentifier::try_read_from_prefix`: needs 16 bytes, and the `class`
and `encoding` enum bytes must hold valid enumerants (zerocopy validity). -/
def readIdentifier (l : List Nat) : Except ElfFault (ElfClass × Encoding) :=
  if l.length < 16 then .error (.InvalidSizeForType l.length)
  else if byteAt l 4 ≠ 1 ∧ byteAt l 4 ≠ 2 then .error .InvalidValueForType
  else if byteAt l 5 ≠ 1 ∧ byteAt l 5 ≠ 2 then .error .InvalidValueForType
  else .ok (if byteAt l 4 = 1 then .Elf32 else .Elf64,
            if byteAt l 5 = 1 then .LittleEndian else .BigEndian)

/-- `TryFrom<&[u8]> for Header` (common/src/elf/header.rs lines 283-373):
identifier read, magic, endianness, class-specific full-record read, object
type, version, header size, and the exact per-class program/section-header
entry sizes. -/
def ElfHeader.tryFrom (l : List Nat) : Except ElfFault ElfHeader :=
  match readIdentifier l with
  | .error e => .error e
  | .ok (cls, enc) =>
    if l.take 4 ≠ elfMagic then .error (.InvalidValueForField "magic")
    else if enc ≠ .LittleEndian then .error .UnsupportedEndianness
    else if l.length < headerSize cls then .error (.InvalidSizeForType l.length)
    else
      let h := parseHeaderFields l cls
      if ¬ objectTypeValid h.typ then .error (.InvalidValueForField "type")
      else if h.version ≠ 1 then .error (.InvalidValueForField "version")
      else if h.size ≠ headerSize cls then .error (.InvalidValueForField "size")
      else if h.program_header_entry_size ≠ eszPH cls then
        .error (.InvalidValueForField "phentsize")
      else if h.section_header_entry_size ≠ eszSH cls then
        .error (.InvalidValueForField "shentsize")
      else .ok h

/-- Error of `File::try_from`: a header fault (facility `ElfHeader`) or a
file-level `Kind` (facility `File`, always `CantFit` here). -/
inductive ElfError where
  | header (f : ElfFault)
  | file (k : Kind)
  deriving DecidableEq

/-- `File` owns the whole input buffer plus the validated header. -/
structure File where
  bytes : List Nat
  header : ElfHeader
  deriving DecidableEq

/-- `TryFrom<&'a [u8]> for File` (common/src/elf/mod.rs lines 103-135).  The
table-bound checks multiply `entry_size * entry_count` in `u16` arithmetic —
the release build wraps the product modulo `2 ^ 16` (a debug build would
panic on overflow), and the wrapped product is what is added to the 64-bit
offset and compared to the buffer length. -/
def File.tryFrom (bytes : List Nat) : Except ElfError File :=
  match ElfHeader.tryFrom bytes with
  | .error e => .error (.header e)
  | .ok header =>
    if bytes.length < header.section_header_offset ∨
        bytes.length < header.section_header_offset +
          header.section_header_entry_size * header.section_header_entries % 65536 then
      .error (.file (.CantFit "section header"))
    else if bytes.length < header.program_header_offset ∨
        bytes.length < header.program_header_offset +
          header.program_header_entry_size * header.program_header_entries % 65536 then
      .error (.file (.CantFit "program header"))
    else .ok ⟨bytes, header⟩

/-! ## Program-header entries (bootloader/src/elf/program_header.rs) -/

/-- Facility of the bootloader's ELF error module. -/
inductive BootElfFacility where
  | File
  | Header
  | SectionHeader
  | ProgramHeader
  | SectionHeaderEntry (n : Nat)
  | ProgramHeaderEntry (n : Nat)
  deriving DecidableEq

/-- Bootloader-side ELF error (facility + kind; context always `Parsing`). -/
structure BootElfError where
  facility : BootElfFacility
  kind : Kind
  deriving DecidableEq

/-- `ProgramHeaderEntryType::try_from(u32)`: enumerants 0–7 plus the
8–0x5FFFFFFF and 0x60000000–0xFFFFFFFF ranges; every `u32` resolves. -/
def phTypeCheck (v : Nat) : Except Reason Unit :=
  if v ≤ 7 then .ok ()
  else if 8 ≤ v ∧ v ≤ 0x5FFFFFFF then .ok ()
  else if 0x60000000 ≤ v ∧ v ≤ 0xFFFFFFFF then .ok ()
  else .error (.InvalidValue v)

/-- Decoded program-header entry (class tag plus widened fields). -/
structure PHEntry where
  cls : ElfClass
  typ : Nat
  offset : Nat
  virtual_address : Nat
  physical_address : Nat
  segment_size_on_file : Nat
  segment_size_in_memory : Nat
  flags : Nat
  alignment : Nat
  deriving DecidableEq

/-- `HeaderEntry::try_from_bytes` (program_header.rs lines 78-118): the
32-bit arm validates the type and rejects a flags word above 7; the 64-bit
arm validates only the type (the field layouts differ per class). -/
def PHEntry.tryFromBytes (bytes : List Nat) (cls : ElfClass) (fac : BootElfFacility) :
    Except BootElfError PHEntry :=
  match cls with
  | .Elf32 =>
    if bytes.length < 32 then .error ⟨fac, .Generic (.InvalidSizeForType bytes.length)⟩
    else
      match phTypeCheck (readLE bytes 0 4) with
      | .error r => .error ⟨fac, .CantReadField "type" r⟩
      | .ok _ =>
        if readLE bytes 24 4 > 7 then
          .error ⟨fac, .CantReadField "type" (.InvalidValue (readLE bytes 24 4))⟩
        else
          .ok
            { cls := .Elf32
              typ := readLE bytes 0 4
              offset := readLE bytes 4 4
              virtual_address := readLE bytes 8 4
              physical_address := readLE bytes 12 4
              segment_size_on_file := readLE bytes 16 4
              segment_size_in_memory := readLE bytes 20 4
              flags := readLE bytes 24 4
              alignment := readLE bytes 28 4 }
  | .Elf64 =>
    if bytes.length < 56 then .error ⟨fac, .Generic (.InvalidSizeForType bytes.length)⟩
    else
      match phTypeCheck (readLE bytes 0 4) with
      | .error r => .error ⟨fac, .CantReadField "type" r⟩
      | .ok _ =>
        .ok
          { cls := .Elf64
            typ := readLE bytes 0 4
            flags := readLE bytes 4 4
            offset := readLE bytes 8 8
            virtual_address := readLE bytes 16 8
            physical_address := readLE bytes 24 8
            segment_size_on_file := readLE bytes 32 8
            segment_size_in_memory := readLE bytes 40 8
            alignment := readLE bytes 48 8 }

/-- `HeaderEntry::permissions`: `Permissions(flags as u8)` — the flags word
truncated to its low 8 bits for either class. -/
def PHEntry.permissions (e : PHEntry) : Nat := e.flags % 256

/-- Iterator state of `ProgramHeaderEntries`. -/
structure ProgramHeaderEntries where
  bytes : List Nat
  cls : ElfClass
  bytes_read_so_far : Nat
  deriving DecidableEq

/-- `ProgramHeaderEntries::new` (program_header.rs lines 309-327): the length
guard multiplies in `u32` (`n_entries as u32 * entry_size as u32`). -/
def ProgramHeaderEntries.new (bytes : List Nat) (cls : ElfClass) (n_entries : Nat) :
    Except BootElfError ProgramHeaderEntries :=
  if bytes.length < n_entries * eszPH cls % 4294967296 then
    .error ⟨.ProgramHeader, .CantFit "program headers"⟩
  else .ok ⟨bytes, cls, 0⟩

/-- `Iterator::next for ProgramHeaderEntries` (program_header.rs
lines 330-354): finished when `bytes_read_so_far >= bytes.len()`; decodes at
the current position and — via `Result::inspect` — advances the position only
when the decode succeeded. -/
def ProgramHeaderEntries.next (it : ProgramHeaderEntries) :
    Option (Except BootElfError PHEntry × ProgramHeaderEntries) :=
  if it.bytes.length ≤ it.bytes_read_so_far then none
  else
    match PHEntry.tryFromBytes (it.bytes.drop it.bytes_read_so_far) it.cls
        (.ProgramHeaderEntry (eszPH it.cls)) with
    | .ok e =>
      some (.ok e, { it with bytes_read_so_far := it.bytes_read_so_far + eszPH it.cls })
    | .error err => some (.error err, it)

/-- First `fuel` items produced by repeatedly calling `next`. -/
def ProgramHeaderEntries.pull (it : ProgramHeaderEntries) :
    Nat → List (Except BootElfError PHEntry)
  | 0 => []
  | fuel + 1 =>
    match it.next with
    | none => []
    | some (item, it2) => item :: it2.pull fuel

/-! ## Section-header entries (bootloader/src/elf/section.rs) -/

/-- `SectionEntryType::try_from(u32)`: enumerants 0–11 and 14–18 plus the
OS- (0x60000000–0x6FFFFFFF), processor- (0x70000000–0x7FFFFFFF) and
user-specific (0x80000000–0xFFFFFFFF) ranges; 12, 13 and 19–0x5FFFFFFF are
invalid. -/
def shTypeCheck (v : Nat) : Except Reason Unit :=
  if v ≤ 11 then .ok ()
  else if 14 ≤ v ∧ v ≤ 18 then .ok ()
  else if 0x60000000 ≤ v ∧ v ≤ 0x6fffffff then .ok ()
  else if 0x70000000 ≤ v ∧ v ≤ 0x7fffffff then .ok ()
  else if 0x80000000 ≤ v ∧ v ≤ 0xffffffff then .ok ()
  else .error (.InvalidValue v)

/-- Decoded section-header entry. -/
structure SHEntry where
  cls : ElfClass
  name_index : Nat
  typ : Nat
  flags : Nat
  address : Nat
  offset : Nat
  size : Nat
  link : Nat
  info : Nat
  address_alignment : Nat
  entry_size : Nat
  deriving DecidableEq

/-- `section::HeaderEntry::try_from_bytes` (section.rs lines 68-99): raw read
of the class-specific record, then the type validity check. -/
def SHEntry.tryFromBytes (bytes : List Nat) (cls : ElfClass) (fac : BootElfFacility) :
    Except BootElfError SHEntry :=
  match cls with
  | .Elf32 =>
    if bytes.length < 40 then .error ⟨fac, .Generic (.InvalidSizeForType bytes.length)⟩
    else
      match shTypeCheck (readLE bytes 4 4) with
      | .error r => .error ⟨fac, .CantReadField "type" r⟩
      | .ok _ =>
        .ok
          { cls := .Elf32
            name_index := readLE bytes 0 4
            typ := readLE bytes 4 4
            flags := readLE bytes 8 4
            address := readLE bytes 12 4
            offset := readLE bytes 16 4
            size := readLE bytes 20 4
            link := readLE bytes 24 4
            info := readLE bytes 28 4
            address_alignment := readLE bytes 32 4
            entry_size := readLE bytes 36 4 }
  | .Elf64 =>
    if bytes.length < 64 then .error ⟨fac, .Generic (.InvalidSizeForType bytes.length)⟩
    else
      match shTypeCheck (readLE bytes 4 4) with
      | .error r => .error ⟨fac, .CantReadField "type" r⟩
      | .ok _ =>
        .ok
          { cls := .Elf64
            name_index := readLE bytes 0 4
            typ := readLE bytes 4 4
            flags := readLE bytes 8 8
            address := readLE bytes 16 8
            offset := readLE bytes 24 8
            size := readLE bytes 32 8
            link := readLE bytes 40 4
            info := readLE bytes 44 4
            address_alignment := readLE bytes 48 8
            entry_size := readLE bytes 56 8 }

/-- Iterator state of `SectionHeaderEntries`. -/
structure SectionHeaderEntries where
  bytes : List Nat
  cls : ElfClass
  bytes_read_so_far : Nat
  deriving DecidableEq

/-- `SectionHeaderEntries::new` (section.rs lines 381-399). -/
def SectionHeaderEntries.new (bytes : List Nat) (cls : ElfClass) (n_entries : Nat) :
    Except BootElfError SectionHeaderEntries :=
  if bytes.length < n_entries * eszSH cls % 4294967296 then
    .error ⟨.SectionHeader, .CantFit "sections"⟩
  else .ok ⟨bytes, cls, 0⟩

/-- `Iterator::next for SectionHeaderEntries` (section.rs lines 346-370):
identical shape to the program-header iterator — the position advances only
on a successful decode. -/
def SectionHeaderEntries.next (it : SectionHeaderEntries) :
    Option (Except BootElfError SHEntry × SectionHeaderEntries) :=
  if it.bytes.length ≤ it.bytes_read_so_far then none
  else
    match SHEntry.tryFromBytes (it.bytes.drop it.bytes_read_so_far) it.cls
        (.SectionHeaderEntry (eszSH it.cls)) with
    | .ok e =>
      some (.ok e, { it with bytes_read_so_far := it.bytes_read_so_far + eszSH it.cls })
    | .error err => some (.error err, it)

/-- First `fuel` items produced by repeatedly calling `next`. -/
def SectionHeaderEntries.pull (it : SectionHeaderEntries) :
    Nat → List (Except BootElfError SHEntry)
  | 0 => []
  | fuel + 1 =>
    match it.next with
    | none => []
    | some (item, it2) => item :: it2.pull fuel

/-- `File::sections` (common/src/elf/mod.rs lines 33-43): slices
`bytes[shoff..][..shentsize * shnum]` (the `u16` product again wraps modulo
`2 ^ 16`) and unwraps `SectionHeaderEntries::new` with `.expect`; `none`
models the panic of either the slicing or the `.expect`. -/
def File.sections (f : File) : Option SectionHeaderEntries :=
  if f.header.section_header_offset > f.bytes.length then none
  else if f.header.section_header_entry_size * f.header.section_header_entries % 65536 >
      f.bytes.length - f.header.section_header_offset then none
  else
    match SectionHeaderEntries.new
        ((f.bytes.drop f.header.section_header_offset).take
          (f.header.section_header_entry_size * f.header.section_header_entries % 65536))
        f.header.cls f.header.section_header_entries with
    | .ok it => some it
    | .error _ => none

/-- `File::program_headers` (common/src/elf/mod.rs lines 48-58), same shape
as `File::sections`. -/
def File.program_headers (f : File) : Option ProgramHeaderEntries :=
  if f.header.program_header_offset > f.bytes.length then none
  else if f.header.program_header_entry_size * f.header.program_header_entries % 65536 >
      f.bytes.length - f.header.program_header_offset then none
  else
    match ProgramHeaderEntries.new
        ((f.bytes.drop f.header.program_header_offset).take
          (f.header.program_header_entry_size * f.header.program_header_entries % 65536))
        f.header.cls f.header.program_header_entries with
    | .ok it => some it
    | .error _ => none

/-! ## Concrete buffers (the repository's own test fixtures and derived
inputs) -/

/-- The 66-byte QEMU EDD drive-parameters fixture
(`QEMU_DRIVE_PARAMETERS_BYTES` of edd/mod.rs). -/
def qemuBytes : List Nat :=
  [0x1e, 0x0, 0x2, 0x0, 0x2, 0x0, 0x0, 0x0, 0x10, 0x0, 0x0, 0x0, 0x3f, 0x0, 0x0, 0x0, 0x91,
   0x0, 0x0, 0x0, 0x0, 0x0, 0x0, 0x0, 0x0, 0x2, 0xff, 0xff, 0xff, 0xff, 0xdd, 0xbe, 0x24, 0x0,
   0x0, 0x0, 0x50, 0x43, 0x49, 0x20, 0x41, 0x54, 0x41, 0x20, 0x20, 0x20, 0x20, 0x20, 0x0, 0x1,
   0x1, 0x0, 0x0, 0x0, 0x0, 0x0, 0x0, 0x0, 0x0, 0x0, 0x0, 0x0, 0x0, 0x0, 0x0, 0xcd]

/-- The 16-byte QEMU fixed-disk-parameter-table fixture (`QEMU_FDPT_BYTES`). -/
def qemuFdptBytes : List Nat :=
  [0xf0, 0x1, 0xf6, 0x3, 0xe0, 0xcb, 0xe, 0x1, 0x0, 0x0, 0x10, 0x0, 0x0, 0x0, 0x11, 0x3b]

/-- The 52-byte 32-bit ELF header fixture (`_32_BIT_BOOTLOADER_HEADER` of
common/src/elf/header.rs). -/
def elf32HeaderBytes : List Nat :=
  [0x7f, 0x45, 0x4c, 0x46, 0x01, 0x01, 0x01, 0x00, 0x00, 0x00, 0x00, 0x00, 0x00, 0x00, 0x00,
   0x00, 0x02, 0x00, 0x03, 0x00, 0x01, 0x00, 0x00, 0x00, 0x00, 0x00, 0x01, 0x00, 0x34, 0x00,
   0x00, 0x00, 0x08, 0xe4, 0x00, 0x00, 0x00, 0x00, 0x00, 0x00, 0x34, 0x00, 0x20, 0x00, 0x04,
   0x00, 0x28, 0x00, 0x07, 0x00, 0x05, 0x00]

/-- `elf32HeaderBytes` with `section_header_offset := 52`,
`program_header_entries := 0` and `section_header_entries := 8192`: every
header field valid, but the exact section-table extent `52 + 40 * 8192` far
exceeds the 52-byte buffer while `40 * 8192 ≡ 0 (mod 2 ^ 16)` makes the
`u16`-multiplied bound check pass. -/
def c3Bytes : List Nat :=
  (elf32HeaderBytes.take 32) ++ [0x34, 0x00, 0x00, 0x00] ++
    ((elf32HeaderBytes.drop 36).take 8) ++ [0x00, 0x00] ++
    ((elf32HeaderBytes.drop 46).take 2) ++ [0x00, 0x20] ++ elf32HeaderBytes.drop 50

/-- Fidelity check of the embedding against the repository's own
`test_parse_drive_parameters` expectation (the spec's Scenario A): the QEMU
fixture decodes to buffer size 30, geometry 2/16/63, 145 sectors of 512
bytes, no FDPT, and a PCI(0,1,1)/ATA(master) device path. -/
theorem qemu_fixture_decodes :
    DriveParameters.tryFrom (fun _ => 0) qemuBytes = .ok
      { buffer_size := 30
        information_flags := 2
        cylinders := 2
        heads := 16
        sectors_per_track := 63
        sectors := 145
        bytes_per_sector := 512
        fixed_disk_parameter_table := none
        device_path_information := some ⟨.Pci 0 1 1, .Ata false⟩ } := by
  decide

/-! ## Small facts about the byte primitives -/

theorem byteAt_lt (l : List Nat) (i : Nat) (hwf : ∀ x ∈ l, x < 256) :
    byteAt l i < 256 := by
  unfold byteAt
  rcases h : l[i]? with _ | x
  · simp [List.getD, h]
  · have := List.getElem?_mem h
    simpa [List.getD, h] using hwf x this

theorem readLE_lt (l : List Nat) (off : Nat) (hwf : ∀ x ∈ l, x < 256) :
    ∀ len, readLE l off len < 256 ^ len := by
  intro len
  induction len generalizing off with
  | zero => simp [readLE]
  | succ n ih =>
    have h1 := byteAt_lt l off hwf
    have h2 := ih (off + 1)
    have : readLE l off (n + 1) = byteAt l off + 256 * readLE l (off + 1) n := rfl
    rw [this, pow_succ]
    nlinarith

theorem checksum8_eq (l : List Nat) : checksum8 l = l.sum % 256 := by
  have key : ∀ (m : List Nat) (a : Nat),
      m.foldl (fun c b => (c + b) % 256) (a % 256) = (a + m.sum) % 256 := by
    intro m
    induction m with
    | nil => simp
    | cons x t ih =>
      intro a
      simp only [List.foldl_cons, Nat.mod_add_mod]
      rw [ih (a + x)]
      simp only [List.sum_cons]
      congr 1
      omega
  have := key l 0
  simpa [checksum8] using this

theorem sum_take_getD (l : List Nat) (n : Nat) (h : n < l.length) :
    (l.take n).sum + l.getD n 0 = (l.take (n + 1)).sum := by
  induction l generalizing n with
  | nil => simp at h
  | cons x t ih =>
    cases n with
    | zero => simp [List.getD]
    | succ m =>
      simp only [List.take_succ_cons, List.sum_cons, List.getD_cons_succ]
      have := ih m (by simpa using Nat.lt_of_succ_lt_succ h)
      omega

theorem sum_set_add (l : List Nat) (i b : Nat) (h : i < l.length) :
    (l.set i b).sum + l.getD i 0 = l.sum + b := by
  induction l generalizing i with
  | nil => simp at h
  | cons x t ih =>
    cases i with
    | zero => simp [List.getD]; omega
    | succ m =>
      simp only [List.set_cons_succ, List.sum_cons, List.getD_cons_succ]
      have := ih m (by simpa using Nat.lt_of_succ_lt_succ h)
      omega

theorem byteAt_set_ne (l : List Nat) (i b j : Nat) (h : j ≠ i) :
    byteAt (l.set i b) j = byteAt l j := by
  unfold byteAt
  simp [List.getD, List.getElem?_set_ne (Ne.symm h)]

theorem readLE_set_lo (l : List Nat) (i b off : Nat) :
    ∀ len, off + len ≤ i → readLE (l.set i b) off len = readLE l off len := by
  intro len
  induction len generalizing off with
  | zero => intro _; rfl
  | succ n ih =>
    intro hle
    have h1 : byteAt (l.set i b) off = byteAt l off :=
      byteAt_set_ne l i b off (by omega)
    have h2 : readLE (l.set i b) (off + 1) n = readLE l (off + 1) n := ih (off + 1) (by omega)
    show byteAt (l.set i b) off + 256 * readLE (l.set i b) (off + 1) n = _
    rw [h1, h2]; rfl

/-- An `Except` that `isOk` is `.ok` of something. -/
theorem exceptIsOk_exists {ε α : Type} (x : Except ε α) (h : x.isOk = true) :
    ∃ a, x = .ok a := by
  cases x with
  | error e => simp [Except.isOk, Except.toBool] at h
  | ok a => exact ⟨a, rfl⟩

/-! ## C1 -/

/-- C1: the claim states that `DriveParameters::try_from` never performs an
unchecked memory access and that, in particular, inputs of 30 and 31 bytes
(raw record read succeeds, device-path signature probe reads bytes 30 and 31)
are turned into typed errors.  The code refutes this: on the 30- and 31-byte
truncations of the QEMU fixture (a fully valid raw record with the sentinel
configuration pointer) the unchecked indexes `bytes[30]`/`bytes[31]` are
reached and the decode panics instead of returning a `CantFit`/`InvalidValue`
error. -/
theorem c1_try_from_panics_on_30_and_31_byte_inputs :
    DriveParameters.tryFrom (fun _ => 0) (qemuBytes.take 30) = .panic ∧
    DriveParameters.tryFrom (fun _ => 0) (qemuBytes.take 31) = .panic := by
  constructor <;> rfl

/-! ## C3 -/

/-- C3: the table-bounds law fails on the code exactly where the claim says it
must also hold: `c3Bytes` is a 52-byte buffer whose validated header declares
`section_header_offset = 52`, `section_header_entry_size = 40` and
`section_header_entries = 8192`, so the exact extent `52 + 40 * 8192 = 327732`
exceeds the buffer; yet `40 * 8192` wraps to `0` in the `u16` multiplication
of the bound check and `File::try_from` succeeds instead of failing with
`CantFit("section header")`. -/
theorem c3_table_bounds_check_wraps_at_u16 :
    (File.tryFrom c3Bytes).toOption.map
        (fun f => (f.header.section_header_offset, f.header.section_header_entry_size,
          f.header.section_header_entries, f.bytes.length)) =
      some (52, 40, 8192, 52) ∧
    c3Bytes.length < 52 + 40 * 8192 := by
  constructor <;> decide

/-! ## C6 -/

/-- C6 counterexample: the claim says a raw record with `buffer_size = 16`
(and all other fields valid) is accepted; the code rejects every
`buffer_size` outside `{26, 30}`, including 16. -/
def bufSize16Raw : DriveParametersRaw :=
  { buffer_size := 16
    information_flags := 0
    cylinders := 0
    heads := 0
    sectors_per_track := 0
    sectors := 145
    bytes_per_sector := 512
    configuration_parameters := 0xffffffff }

/-- C6: refutation of the claim as stated — the otherwise-valid raw record
with `buffer_size = 16` is rejected with
`CantReadField("buffer size", InvalidValue(16))`, not accepted. -/
theorem c6_buffer_size_16_rejected :
    DriveParameters.tryFromRaw bufSize16Raw =
      .error ⟨.DriveParameters, .CantReadField "buffer size" (.InvalidValue 16)⟩ := by
  decide

/-- C6 (amended): decoding a raw drive-parameters record succeeds only if
`buffer_size ∈ {26, 30}`, and any other value — 16 included — is rejected
with `CantReadField("buffer size", InvalidValue)`. -/
theorem c6_buffer_size_26_or_30 (value : DriveParametersRaw) :
    ((DriveParameters.tryFromRaw value).isOk = true →
      value.buffer_size = 26 ∨ value.buffer_size = 30) ∧
    (value.buffer_size ≠ 26 → value.buffer_size ≠ 30 →
      DriveParameters.tryFromRaw value =
        .error ⟨.DriveParameters,
          .CantReadField "buffer size" (.InvalidValue value.buffer_size)⟩) := by
  constructor
  · intro h
    by_contra hc
    push_neg at hc
    simp [DriveParameters.tryFromRaw, hc.1, hc.2, Except.isOk, Except.toBool] at h
  · intro h26 h30
    simp [DriveParameters.tryFromRaw, h26, h30]

/-- C6 amended-claim witness: the amended theorem applied to the concrete
`buffer_size = 16` record. -/
theorem c6_buffer_size_26_or_30_witness :
    DriveParameters.tryFromRaw bufSize16Raw =
      .error ⟨.DriveParameters, .CantReadField "buffer size" (.InvalidValue 16)⟩ :=
  (c6_buffer_size_26_or_30 bufSize16Raw).2 (by decide) (by decide)

/-! ## C7 -/

/-- C7 counterexample raw record: `head_prefix = 0x80` (bit 7 set, bits 0–3
zero, but bit 5 clear — not the claim's `1010____` pattern), all other fields
taken from the QEMU FDPT fixture. -/
def headPfx80Raw : FixedDiskParameterTableRaw :=
  { io_port_base := 0x1f0
    control_port_base := 0x3f6
    head_pfx := 0x80
    internal := 0
    irq := 14
    sector_count := 1
    dma_channel_type := 0
    pio_type := 0
    hardware_specific_option_flags := 0x10
    unused := 0
    extension_revision := 0x11
    checksum := 0x3b }

/-- C7: refutation of the claim as stated — the decoder accepts
`head_prefix = 0x80` although the claim's `1010____` pattern requires bit 5
set; the code only enforces `head_prefix & 0b10001111 == 0b10000000`. -/
theorem c7_head_prefix_80_accepted :
    (FixedDiskParameterTable.tryFromRaw headPfx80Raw).isOk = true := by decide

/-- C7 (amended): decoding succeeds only if
`head_prefix & 0b10001111 = 0b10000000` — bit 7 set and bits 0–3 zero, with
bits 4–6 unconstrained — and (once the earlier `extension_revision` check has
passed) any byte failing that mask is rejected with
`CantReadField("head_prefix", InvalidValue)`. -/
theorem c7_head_prefix_mask (value : FixedDiskParameterTableRaw) :
    ((FixedDiskParameterTable.tryFromRaw value).isOk = true →
      value.head_pfx &&& 0b10001111 = 0b10000000) ∧
    (value.extension_revision = 0x11 → value.head_pfx &&& 0b10001111 ≠ 0b10000000 →
      FixedDiskParameterTable.tryFromRaw value =
        .error ⟨.FixedDiskParameterTable,
          .CantReadField "head_prefix" (.InvalidValue value.head_pfx)⟩) := by
  constructor
  · intro h
    by_contra hc
    rcases eq_or_ne value.extension_revision 0x11 with hrev | hrev
    · simp [FixedDiskParameterTable.tryFromRaw, hrev, hc, Except.isOk, Except.toBool] at h
    · simp [FixedDiskParameterTable.tryFromRaw, hrev, Except.isOk, Except.toBool] at h
  · intro hrev hmask
    simp [FixedDiskParameterTable.tryFromRaw, hrev, hmask]

/-- C7 witness raw record: `head_prefix = 0x00` fails the code's mask. -/
def headPfx00Raw : FixedDiskParameterTableRaw :=
  { headPfx80Raw with head_pfx := 0x00 }

/-- C7 amended-claim witness: the amended theorem applied to the concrete
`head_prefix = 0x00` record. -/
theorem c7_head_prefix_mask_witness :
    FixedDiskParameterTable.tryFromRaw headPfx00Raw =
      .error ⟨.FixedDiskParameterTable,
        .CantReadField "head_prefix" (.InvalidValue 0x00)⟩ :=
  (c7_head_prefix_mask headPfx00Raw).2 (by decide) (by decide)

/-! ## C10 -/

/-- Shape of a successful raw drive-parameters conversion: the decoded record
copies `buffer_size` and starts with no fixed-disk parameter table and no
device-path information. -/
theorem tryFromRaw_ok_shape (value : DriveParametersRaw) (dp : DriveParameters)
    (h : DriveParameters.tryFromRaw value = .ok dp) :
    dp.buffer_size = value.buffer_size ∧
    dp.fixed_disk_parameter_table = none ∧
    dp.device_path_information = none := by
  unfold DriveParameters.tryFromRaw at h
  repeat' split at h
  all_goals try (injection h with h2; subst h2)
  all_goals first
    | exact ⟨rfl, rfl, rfl⟩
    | cases h

/-- C10 counterexample input: 30 zero bytes — the configuration-parameters
pointer is `0` (not the sentinel) and `buffer_size = 0 ≠ 30`, so the claim
demands failure with `CantFit("fixed disk parameter table")`. -/
def c10Bytes : List Nat := List.replicate 30 0

/-- C10: refutation of the claim as stated — on `c10Bytes` (non-sentinel
pointer, `buffer_size ≠ 30`) the decode fails with
`CantReadField("buffer size", InvalidValue(0))`, which is not the claimed
`CantFit("fixed disk parameter table")` error. -/
theorem c10_buffer_size_error_not_cant_fit :
    DriveParameters.tryFrom (fun _ => 0) c10Bytes =
      .err ⟨.DriveParameters, .CantReadField "buffer size" (.InvalidValue 0)⟩ ∧
    Kind.CantReadField "buffer size" (.InvalidValue 0) ≠
      Kind.CantFit "fixed disk parameter table" := by
  constructor
  · decide
  · decide

/-- C10 (amended): for an input whose raw record passes field validation,
a non-sentinel configuration-parameters pointer with `buffer_size = 26` (the
only accepted value other than 30) makes the whole decode fail with
`CantFit("fixed disk parameter table")` (no partially-valid result); and with
the sentinel pointer a successful decode always leaves
`fixed_disk_parameter_table` as `None`. -/
theorem c10_fdpt_resolution (mem : Nat → Nat) (bytes : List Nat)
    (raw : DriveParametersRaw) :
    (DriveParametersRaw.tryReadPfx bytes = .ok raw →
      raw.configuration_parameters ≠ 0xffffffff →
      ∀ dp0, DriveParameters.tryFromRaw raw = .ok dp0 →
      raw.buffer_size = 26 →
      DriveParameters.tryFrom mem bytes =
        .err ⟨.DriveParameters, .CantFit "fixed disk parameter table"⟩) ∧
    (DriveParametersRaw.tryReadPfx bytes = .ok raw →
      raw.configuration_parameters = 0xffffffff →
      ∀ dp, DriveParameters.tryFrom mem bytes = .ok dp →
      dp.fixed_disk_parameter_table = none) := by
  constructor
  · intro hread hcfg dp0 hok hbs
    obtain ⟨hdb, -, -⟩ := tryFromRaw_ok_shape raw dp0 hok
    unfold DriveParameters.tryFrom
    rw [hread]
    simp only [hok]
    rw [if_pos hcfg]
    unfold DriveParameters.resolveFdbt
    rw [if_neg hcfg, if_pos (by rw [hdb, hbs]; decide)]
  · intro hread hcfg dp hdp
    unfold DriveParameters.tryFrom at hdp
    simp only [hread] at hdp
    rcases hok : DriveParameters.tryFromRaw raw with e | r0
    · simp only [hok] at hdp
      cases hdp
    · simp only [hok] at hdp
      obtain ⟨-, hfd, -⟩ := tryFromRaw_ok_shape raw r0 hok
      have hcond : ¬ (raw.configuration_parameters ≠ 0xffffffff) := by simp [hcfg]
      simp only [if_neg hcond] at hdp
      split at hdp
      · cases hdp
      · split at hdp
        · rcases hdpi : DevicePathInformation.tryFromBytes (bytes.drop 30) with e | dpi
          · simp only [hdpi] at hdp
            cases hdp
          · simp only [hdpi] at hdp
            injection hdp with h2
            subst h2
            exact hfd
        · injection hdp with h2
          subst h2
          exact hfd

/-- C10 witness input for the `CantFit` arm: a 30-byte record with
`buffer_size = 26`, valid fields and configuration-parameters pointer `0`. -/
def c10Bytes26 : List Nat :=
  [0x1a, 0x0, 0x0, 0x0, 0x0, 0x0, 0x0, 0x0, 0x0, 0x0, 0x0, 0x0, 0x0, 0x0, 0x0, 0x0, 0x0,
   0x0, 0x0, 0x0, 0x0, 0x0, 0x0, 0x0, 0x0, 0x2, 0x0, 0x0, 0x0, 0x0]

/-- C10 raw record read from `c10Bytes26`. -/
def c10Raw26 : DriveParametersRaw :=
  { buffer_size := 26
    information_flags := 0
    cylinders := 0
    heads := 0
    sectors_per_track := 0
    sectors := 0
    bytes_per_sector := 512
    configuration_parameters := 0 }

/-- C10 raw record read from `qemuBytes` (sentinel pointer). -/
def qemuRaw : DriveParametersRaw :=
  { buffer_size := 30
    information_flags := 2
    cylinders := 2
    heads := 16
    sectors_per_track := 63
    sectors := 145
    bytes_per_sector := 512
    configuration_parameters := 0xffffffff }

/-- C10 amended-claim witness: both arms of the amended theorem at concrete
inputs — `c10Bytes26` fails with the `CantFit` error, and the QEMU fixture
(sentinel pointer) decodes with no fixed-disk parameter table. -/
theorem c10_fdpt_resolution_witness :
    DriveParameters.tryFrom (fun _ => 0) c10Bytes26 =
      .err ⟨.DriveParameters, .CantFit "fixed disk parameter table"⟩ ∧
    ∀ dp, DriveParameters.tryFrom (fun _ => 0) qemuBytes = .ok dp →
      dp.fixed_disk_parameter_table = none := by
  constructor
  · exact (c10_fdpt_resolution (fun _ => 0) c10Bytes26 c10Raw26).1
      (by decide) (by decide)
      { buffer_size := 26, information_flags := 0, cylinders := 0, heads := 0,
        sectors_per_track := 0, sectors := 0, bytes_per_sector := 512,
        fixed_disk_parameter_table := none, device_path_information := none }
      (by decide) (by decide)
  · exact (c10_fdpt_resolution (fun _ => 0) qemuBytes qemuRaw).2 (by decide) (by decide)

/-! ## C8 -/

/-- `phTypeCheck` accepts every `u32` value. -/
theorem phTypeCheck_ok (v : Nat) (h : v < 4294967296) : phTypeCheck v = .ok () := by
  unfold phTypeCheck
  repeat' split
  any_goals rfl
  omega

/-- C8: for every successfully decoded ELF header,
`program_header_entry_size` is exactly 32 (32-bit class) or 56 (64-bit class)
and `section_header_entry_size` exactly 40 or 64 respectively; and whenever
the identifier decodes but either raw size field differs from its per-class
constant, header decoding fails regardless of the remaining fields. -/
theorem c8_entry_sizes_exact :
    (∀ l h, ElfHeader.tryFrom l = .ok h →
      (h.cls = .Elf32 → h.program_header_entry_size = 32 ∧ h.section_header_entry_size = 40) ∧
      (h.cls = .Elf64 → h.program_header_entry_size = 56 ∧ h.section_header_entry_size = 64)) ∧
    (∀ l cls enc, readIdentifier l = .ok (cls, enc) →
      (parseHeaderFields l cls).program_header_entry_size ≠ eszPH cls →
      ∀ h, ElfHeader.tryFrom l ≠ .ok h) ∧
    (∀ l cls enc, readIdentifier l = .ok (cls, enc) →
      (parseHeaderFields l cls).section_header_entry_size ≠ eszSH cls →
      ∀ h, ElfHeader.tryFrom l ≠ .ok h) := by
  refine ⟨?_, ?_, ?_⟩
  · intro l h hok
    unfold ElfHeader.tryFrom at hok
    rcases hid : readIdentifier l with e | ⟨cls, enc⟩
    · simp only [hid] at hok
      cases hok
    · simp only [hid] at hok
      repeat' split at hok
      all_goals try cases hok
      rename_i hph hsh
      rw [not_not] at hph hsh
      have hcls : (parseHeaderFields l cls).cls = cls := by
        cases cls <;> rfl
      constructor
      · intro h32
        rw [hcls] at h32
        subst h32
        exact ⟨hph, hsh⟩
      · intro h64
        rw [hcls] at h64
        subst h64
        exact ⟨hph, hsh⟩
  · intro l cls enc hid hne h hok
    unfold ElfHeader.tryFrom at hok
    simp only [hid] at hok
    repeat' split at hok
    all_goals try cases hok
  · intro l cls enc hid hne h hok
    unfold ElfHeader.tryFrom at hok
    simp only [hid] at hok
    repeat' split at hok
    all_goals try cases hok

/-- The decoded 32-bit fixture header. -/
def elf32Header : ElfHeader :=
  { cls := .Elf32
    typ := 2
    machine := 3
    version := 1
    entrypoint := 0x10000
    program_header_offset := 52
    section_header_offset := 58376
    flags := 0
    size := 52
    program_header_entry_size := 32
    program_header_entries := 4
    section_header_entry_size := 40
    section_header_entries := 7
    string_table_index := 5 }

/-- C8 witness: the exact-entry-size law applied to the repository's 32-bit
header fixture, which decodes with entry sizes 32/40. -/
theorem c8_entry_sizes_exact_witness :
    ElfHeader.tryFrom elf32HeaderBytes = .ok elf32Header ∧
    elf32Header.program_header_entry_size = 32 ∧
    elf32Header.section_header_entry_size = 40 := by
  refine ⟨by decide, ?_⟩
  exact (c8_entry_sizes_exact.1 elf32HeaderBytes elf32Header (by decide)).1 rfl

/-! ## C9 -/

/-- C9: program-header flag validation is asymmetric between classes — a
32-bit entry fails decoding whenever its flags word exceeds 7, while a 64-bit
entry decodes for every flags value and `permissions()` keeps only the low
8 bits of the flags word. -/
theorem c9_flags_validation_asymmetric :
    (∀ bytes fac, (∀ x ∈ bytes, x < 256) → 32 ≤ bytes.length →
      7 < readLE bytes 24 4 →
      PHEntry.tryFromBytes bytes .Elf32 fac =
        .error ⟨fac, .CantReadField "type" (.InvalidValue (readLE bytes 24 4))⟩) ∧
    (∀ bytes fac, (∀ x ∈ bytes, x < 256) → 56 ≤ bytes.length →
      ∃ e, PHEntry.tryFromBytes bytes .Elf64 fac = .ok e ∧
        e.flags = readLE bytes 4 4 ∧
        e.permissions = readLE bytes 4 4 % 256) := by
  constructor
  · intro bytes fac hwf hlen hflags
    have hty : phTypeCheck (readLE bytes 0 4) = .ok () :=
      phTypeCheck_ok _ (by simpa using readLE_lt bytes 0 hwf 4)
    unfold PHEntry.tryFromBytes
    rw [if_neg (by omega), hty]
    rw [if_pos hflags]
  · intro bytes fac hwf hlen
    have hty : phTypeCheck (readLE bytes 0 4) = .ok () :=
      phTypeCheck_ok _ (by simpa using readLE_lt bytes 0 hwf 4)
    refine ⟨{ cls := .Elf64, typ := readLE bytes 0 4, offset := readLE bytes 8 8,
              virtual_address := readLE bytes 16 8, physical_address := readLE bytes 24 8,
              segment_size_on_file := readLE bytes 32 8,
              segment_size_in_memory := readLE bytes 40 8,
              flags := readLE bytes 4 4, alignment := readLE bytes 48 8 }, ?_, rfl, rfl⟩
    unfold PHEntry.tryFromBytes
    rw [hty, if_neg (show ¬ (bytes.length < 56) by omega)]

/-- C9 witness input: a 32-byte 32-bit entry whose flags word (offset 24)
is 8. -/
def phe32Flags8 : List Nat :=
  List.replicate 24 0 ++ [8, 0, 0, 0] ++ List.replicate 4 0

/-- C9 witness input: a 56-byte 64-bit entry whose flags word (offset 4) is
`0x12345678`. -/
def phe64BigFlags : List Nat :=
  [0, 0, 0, 0, 0x78, 0x56, 0x34, 0x12] ++ List.replicate 48 0

/-- C9 witness: the asymmetry theorem applied to concrete entries — the
32-bit entry with flags 8 is rejected, the 64-bit entry with flags
`0x12345678` is accepted and its permissions set is `0x78`. -/
theorem c9_flags_validation_asymmetric_witness :
    PHEntry.tryFromBytes phe32Flags8 .Elf32 (.ProgramHeaderEntry 32) =
      .error ⟨.ProgramHeaderEntry 32, .CantReadField "type" (.InvalidValue 8)⟩ ∧
    ∃ e, PHEntry.tryFromBytes phe64BigFlags .Elf64 (.ProgramHeaderEntry 56) = .ok e ∧
      e.flags = 0x12345678 ∧ e.permissions = 0x78 := by
  constructor
  · have := c9_flags_validation_asymmetric.1 phe32Flags8 (.ProgramHeaderEntry 32)
      (by decide) (by decide) (by decide)
    simpa using this
  · have := c9_flags_validation_asymmetric.2 phe64BigFlags (.ProgramHeaderEntry 56)
      (by decide) (by decide)
    simpa using this

/-! ## C4 -/

/-- Raw FDPT read on a buffer of at least 16 bytes. -/
theorem fdptRaw_eq (l : List Nat) (h : 16 ≤ l.length) :
    FixedDiskParameterTableRaw.tryReadPfx l = .ok
      { io_port_base := readLE l 0 2
        control_port_base := readLE l 2 2
        head_pfx := byteAt l 4
        internal := byteAt l 5
        irq := byteAt l 6
        sector_count := byteAt l 7
        dma_channel_type := byteAt l 8
        pio_type := byteAt l 9
        hardware_specific_option_flags := readLE l 10 2
        unused := readLE l 12 2
        extension_revision := byteAt l 14
        checksum := byteAt l 15 } := by
  unfold FixedDiskParameterTableRaw.tryReadPfx
  rw [if_neg (by omega)]

/-- Raw device-path read on a buffer of at least 36 bytes. -/
theorem dpiRaw_eq (l : List Nat) (h : 36 ≤ l.length) :
    DevicePathInformationRaw.tryReadPfx l = .ok
      { bedd := readLE l 0 2
        length := byteAt l 2
        reserved_1 := byteAt l 3
        reserved_2 := readLE l 4 2
        host_bus_type := [byteAt l 6, byteAt l 7, byteAt l 8, byteAt l 9]
        interface_type := [byteAt l 10, byteAt l 11, byteAt l 12, byteAt l 13,
                           byteAt l 14, byteAt l 15, byteAt l 16, byteAt l 17]
        interface_path := readLE l 18 8
        device_path := readLE l 26 8
        reserved_3 := byteAt l 34
        checksum := byteAt l 35 } := by
  unfold DevicePathInformationRaw.tryReadPfx
  rw [if_neg (by omega)]

/-- The wrapping checksum gate equals the whole-record byte sum modulo 256:
`fold(bytes[..n]) .wrapping_add bytes[n] ≡ sum(bytes[..n+1]) (mod 256)`. -/
theorem checksum_gate_eq (l : List Nat) (n : Nat) (h : n < l.length) :
    (checksum8 (l.take n) + byteAt l n) % 256 = (l.take (n + 1)).sum % 256 := by
  rw [checksum8_eq, Nat.mod_add_mod]
  simp only [byteAt]
  rw [sum_take_getD l n h]

/-- Gates established by a successful FDPT byte decode: the buffer holds the
16-byte record and its byte sum vanishes modulo 256. -/
theorem fdpt_ok_gates (l : List Nat)
    (hok : (FixedDiskParameterTable.tryFromBytes l).isOk = true) :
    16 ≤ l.length ∧ (l.take 16).sum % 256 = 0 := by
  unfold FixedDiskParameterTable.tryFromBytes at hok
  rcases hr : FixedDiskParameterTableRaw.tryReadPfx l with e | raw
  · simp only [hr, Except.isOk, Except.toBool] at hok
    cases hok
  · have hlen : 16 ≤ l.length := by
      by_contra hlt
      unfold FixedDiskParameterTableRaw.tryReadPfx at hr
      rw [if_pos (by omega)] at hr
      cases hr
    rw [fdptRaw_eq l hlen] at hr
    injection hr with hr2
    subst hr2
    simp only [fdptRaw_eq l hlen] at hok
    refine ⟨hlen, ?_⟩
    split at hok
    · simp [Except.isOk, Except.toBool] at hok
    · rename_i hgate
      rw [not_not] at hgate
      rw [checksum_gate_eq l 15 (by omega)] at hgate
      exact hgate

/-- Gates established by a successful device-path byte decode: buffer length,
signature, reserved bytes, length field and vanishing checksum. -/
theorem dpi_ok_gates (l : List Nat)
    (hok : (DevicePathInformation.tryFromBytes l).isOk = true) :
    36 ≤ l.length ∧ readLE l 0 2 = 0xbedd ∧ byteAt l 3 = 0 ∧ readLE l 4 2 = 0 ∧
    byteAt l 34 = 0 ∧ byteAt l 2 = 36 ∧ (l.take 36).sum % 256 = 0 := by
  unfold DevicePathInformation.tryFromBytes at hok
  rcases hr : DevicePathInformationRaw.tryReadPfx l with e | raw
  · simp only [hr, Except.isOk, Except.toBool] at hok
    cases hok
  · have hlen : 36 ≤ l.length := by
      by_contra hlt
      unfold DevicePathInformationRaw.tryReadPfx at hr
      rw [if_pos (by omega)] at hr
      cases hr
    rw [dpiRaw_eq l hlen] at hr
    injection hr with hr2
    subst hr2
    simp only [dpiRaw_eq l hlen] at hok
    split at hok
    · simp [Except.isOk, Except.toBool] at hok
    split at hok
    · simp [Except.isOk, Except.toBool] at hok
    split at hok
    · simp [Except.isOk, Except.toBool] at hok
    split at hok
    · simp [Except.isOk, Except.toBool] at hok
    rename_i hbedd hrsv hl36 hgate
    rw [not_not] at hbedd hl36 hgate
    push_neg at hrsv
    rw [checksum_gate_eq l 35 (by omega)] at hgate
    exact ⟨hlen, hbedd, hrsv.1, hrsv.2.1, hrsv.2.2, hl36, hgate⟩

/-- Disturbing one byte of a zero-sum record leaves a nonzero sum: the core
single-byte-mutation argument. -/
theorem set_sum_ne (l : List Nat) (i b : Nat) (hi : i < l.length)
    (hwf : ∀ x ∈ l, x < 256) (hb : b < 256) (hne : b ≠ l.getD i 0)
    (hsum : l.sum % 256 = 0) : (l.set i b).sum % 256 ≠ 0 := by
  have hadd := sum_set_add l i b hi
  have hlt : l.getD i 0 < 256 := byteAt_lt l i hwf
  omega

/-- C4 counterexample: the claim says mutating any single byte of a valid
record yields a checksum error (`CantReadField` on the checksum field).  The
36-byte QEMU device-path record is valid, but mutating its first byte (part
of the `0xBEDD` signature) fails with `CantReadField("bedd", InvalidValue)` —
the signature check runs before the checksum check, so the failure is not the
claimed checksum error.  (The claim also calls the device-path record
16 bytes; the `DevicePathInformationRaw` record is 36 bytes.) -/
theorem c4_mutated_signature_not_checksum_error :
    (DevicePathInformation.tryFromBytes (qemuBytes.drop 30)).isOk = true ∧
    DevicePathInformation.tryFromBytes ((qemuBytes.drop 30).set 0 0) =
      .error ⟨.DevicePathInformation, .CantReadField "bedd" (.InvalidValue 0xbe00)⟩ := by
  constructor
  · decide
  · decide

/-- C4 (amended): the FDPT raw record is 16 bytes and the device-path raw
record 36 bytes; decoding either succeeds only if the 8-bit wraparound sum of
the whole record (all bytes before the checksum byte, wrapping-added to the
checksum byte) vanishes modulo 256.  Mutating any single byte of a valid
record (without re-deriving the checksum) makes decoding fail: for the FDPT —
whose checksum is verified first — always with
`CantReadField("checksum", InvalidValue)`; for the device-path record the
decode always fails, and the failure is the checksum error whenever the
mutated byte is outside the signature/length/reserved fields at offsets 0–5
and the reserved byte at offset 34 (those earlier field checks fire
first). -/
theorem c4_checksum_and_single_byte_mutation :
    (∀ l, (FixedDiskParameterTable.tryFromBytes l).isOk = true →
      (l.take 16).sum % 256 = 0) ∧
    (∀ l, (DevicePathInformation.tryFromBytes l).isOk = true →
      (l.take 36).sum % 256 = 0) ∧
    (∀ l i b, l.length = 16 → (∀ x ∈ l, x < 256) →
      (FixedDiskParameterTable.tryFromBytes l).isOk = true →
      i < 16 → b < 256 → b ≠ l.getD i 0 →
      FixedDiskParameterTable.tryFromBytes (l.set i b) =
        .error ⟨.FixedDiskParameterTable,
          .CantReadField "checksum" (.InvalidValue (byteAt (l.set i b) 15))⟩) ∧
    (∀ l i b, l.length = 36 → (∀ x ∈ l, x < 256) →
      (DevicePathInformation.tryFromBytes l).isOk = true →
      i < 36 → b < 256 → b ≠ l.getD i 0 →
      (DevicePathInformation.tryFromBytes (l.set i b)).isOk = false) ∧
    (∀ l i b, l.length = 36 → (∀ x ∈ l, x < 256) →
      (DevicePathInformation.tryFromBytes l).isOk = true →
      6 ≤ i → i < 36 → i ≠ 34 → b < 256 → b ≠ l.getD i 0 →
      DevicePathInformation.tryFromBytes (l.set i b) =
        .error ⟨.DevicePathInformation,
          .CantReadField "checksum" (.InvalidValue (byteAt (l.set i b) 35))⟩) := by
  have take_all : ∀ (l : List Nat) (n : Nat), l.length = n → l.take n = l := by
    intro l n hn
    rw [← hn]
    exact List.take_length l
  refine ⟨fun l hok => (fdpt_ok_gates l hok).2,
          fun l hok => (dpi_ok_gates l hok).2.2.2.2.2.2, ?_, ?_, ?_⟩
  · intro l i b hlen hwf hok hi hb hne
    obtain ⟨h16, hsum⟩ := fdpt_ok_gates l hok
    rw [take_all l 16 hlen] at hsum
    have hm16 : (l.set i b).length = 16 := by simp [hlen]
    have hmsum : (l.set i b).sum % 256 ≠ 0 :=
      set_sum_ne l i b (by omega) hwf hb hne hsum
    unfold FixedDiskParameterTable.tryFromBytes
    simp only [fdptRaw_eq (l.set i b) (by omega)]
    rw [if_pos ?gate]
    case gate =>
      rw [checksum_gate_eq (l.set i b) 15 (by omega), take_all (l.set i b) 16 hm16]
      exact hmsum
  · intro l i b hlen hwf hok hi hb hne
    obtain ⟨h36, -, -, -, -, -, hsum⟩ := dpi_ok_gates l hok
    rw [take_all l 36 hlen] at hsum
    have hm36 : (l.set i b).length = 36 := by simp [hlen]
    have hmsum : (l.set i b).sum % 256 ≠ 0 :=
      set_sum_ne l i b (by omega) hwf hb hne hsum
    by_contra hok2
    rw [Bool.not_eq_false] at hok2
    have := (dpi_ok_gates (l.set i b) hok2).2.2.2.2.2.2
    rw [take_all (l.set i b) 36 hm36] at this
    exact hmsum this
  · intro l i b hlen hwf hok hi6 hi hi34 hb hne
    obtain ⟨h36, hbedd, hr1, hr2, hr3, hl36, hsum⟩ := dpi_ok_gates l hok
    rw [take_all l 36 hlen] at hsum
    have hm36 : (l.set i b).length = 36 := by simp [hlen]
    have hmsum : (l.set i b).sum % 256 ≠ 0 :=
      set_sum_ne l i b (by omega) hwf hb hne hsum
    have hg1 : readLE (l.set i b) 0 2 = 0xbedd := by
      rw [readLE_set_lo l i b 0 2 (by omega)]; exact hbedd
    have hg2 : byteAt (l.set i b) 3 = 0 := by
      rw [byteAt_set_ne l i b 3 (by omega)]; exact hr1
    have hg3 : readLE (l.set i b) 4 2 = 0 := by
      rw [readLE_set_lo l i b 4 2 (by omega)]; exact hr2
    have hg4 : byteAt (l.set i b) 2 = 36 := by
      rw [byteAt_set_ne l i b 2 (by omega)]; exact hl36
    unfold DevicePathInformation.tryFromBytes
    simp only [dpiRaw_eq (l.set i b) (by omega)]
    rw [if_neg (by simp [hg1]), if_neg ?rsv, if_neg (by simp [hg4]), if_pos ?gate]
    case rsv =>
      push_neg
      refine ⟨hg2, hg3, ?_⟩
      rw [byteAt_set_ne l i b 34 (by omega)]
      exact hr3
    case gate =>
      rw [checksum_gate_eq (l.set i b) 35 (by omega), take_all (l.set i b) 36 hm36]
      exact hmsum

/-- C4 witness: the amended theorem applied to the QEMU fixtures — the valid
16-byte FDPT record with byte 0 mutated fails with the checksum error, and
the valid 36-byte device-path record with byte 6 mutated fails with the
checksum error. -/
theorem c4_checksum_and_single_byte_mutation_witness :
    FixedDiskParameterTable.tryFromBytes (qemuFdptBytes.set 0 0) =
      .error ⟨.FixedDiskParameterTable, .CantReadField "checksum" (.InvalidValue 0x3b)⟩ ∧
    DevicePathInformation.tryFromBytes ((qemuBytes.drop 30).set 6 0) =
      .error ⟨.DevicePathInformation, .CantReadField "checksum" (.InvalidValue 0xcd)⟩ := by
  constructor
  · have := c4_checksum_and_single_byte_mutation.2.2.1 qemuFdptBytes 0 0
      (by decide) (by decide) (by decide) (by decide) (by decide) (by decide)
    simpa using this
  · have := c4_checksum_and_single_byte_mutation.2.2.2.2 (qemuBytes.drop 30) 6 0
      (by decide) (by decide) (by decide) (by decide) (by decide) (by decide) (by decide)
      (by decide)
    simpa using this

/-! ## C5 -/

/-- A matched tag pins down the byte prefix. -/
theorem startsWith_eq (l p : List Nat) (h : listStartsWith l p = true) :
    l.take p.length = p := by
  simpa [listStartsWith] using h

/-- A matched tag pins down every shorter byte prefix. -/
theorem startsWith_take_of (l p : List Nat) (h : listStartsWith l p = true)
    (k : Nat) (hk : k ≤ p.length) : l.take k = p.take k := by
  rw [← startsWith_eq l p h, List.take_take, Nat.min_eq_left hk]

/-- Two tags that differ on a common prefix cannot both match. -/
theorem tag_no_match (l p q : List Nat) (hp : listStartsWith l p = true)
    (k : Nat) (hkp : k ≤ p.length) (hkq : k ≤ q.length)
    (hne : p.take k ≠ q.take k) : ¬ listStartsWith l q = true := fun hq =>
  hne ((startsWith_take_of l p hp k hkp).symm.trans (startsWith_take_of l q hq k hkq))

/-- C5 counterexample raw record: valid PCI host bus, interface tag
`"FIBRE "`, and `device_path = 0x0101` — byte 0 is the wwn and byte 1 is a
nonzero unused trailing byte. -/
def fibreRaw : DevicePathInformationRaw :=
  { bedd := 0xbedd
    length := 36
    reserved_1 := 0
    reserved_2 := 0
    host_bus_type := [0x50, 0x43, 0x49, 0x20]
    interface_type := [0x46, 0x49, 0x42, 0x52, 0x45, 0x20, 0x20, 0x20]
    interface_path := 0x010100
    device_path := 0x0101
    reserved_3 := 0
    checksum := 0 }

/-- C5: refutation of the claim as stated — the FIBRE interface variant does
not police its unused trailing device-path bytes: `fibreRaw` carries a
nonzero byte in `device_path[1]`, yet the raw conversion succeeds instead of
failing with `InvalidValuesForReservedBits`. -/
theorem c5_fibre_nonzero_trailing_accepted :
    leByte fibreRaw.device_path 1 ≠ 0 ∧
    DevicePathInformation.tryFromRaw fibreRaw = .ok ⟨.Pci 0 1 1, .Fibre 1⟩ := by
  constructor
  · decide
  · decide

/-- C5 (amended): the zero check on unused trailing bytes holds for the
variants that perform it — PCI and ISA host buses and the ATA, SCSI and USB
interfaces fail with `CantReadField(..., InvalidValuesForReservedBits)`
whenever a trailing byte of their 8-byte field is nonzero — but not for every
variant: the `1394` arm consumes all 8 `device_path` bytes as its guid and
the `FIBRE` arm reads only byte 0, accepting arbitrary values in bytes 1–7.
(The ATAPI arm is unreachable: the source tests `b"ATA"` first, and every
`b"ATAPI"` tag also matches it.) -/
theorem c5_reserved_trailing_bytes_per_variant :
    (∀ v : DevicePathInformationRaw, listStartsWith v.host_bus_type pciTag = true →
      ¬ ((List.range 5).all (fun k => leByte v.interface_path (3 + k) == 0) = true) →
      DevicePathInformation.tryFromRaw v = .error ⟨.DevicePathInformation,
        .CantReadField "PCI interface path reserved bytes" .InvalidValuesForReservedBits⟩) ∧
    (∀ v : DevicePathInformationRaw, listStartsWith v.host_bus_type isaTag = true →
      ¬ listStartsWith v.host_bus_type pciTag = true →
      ¬ ((List.range 6).all (fun k => leByte v.interface_path (2 + k) == 0) = true) →
      DevicePathInformation.tryFromRaw v = .error ⟨.DevicePathInformation,
        .CantReadField "ISA interface path reserved bytes" .InvalidValuesForReservedBits⟩) ∧
    (∀ (v : DevicePathInformationRaw) (hb : HostBus), hostBusOf v = .ok hb →
      listStartsWith v.interface_type ataTag = true →
      ¬ ((List.range 7).all (fun k => leByte v.device_path (1 + k) == 0) = true) →
      DevicePathInformation.tryFromRaw v = .error ⟨.DevicePathInformation,
        .CantReadField "ATA device path reserved bytes" .InvalidValuesForReservedBits⟩) ∧
    (∀ (v : DevicePathInformationRaw) (hb : HostBus), hostBusOf v = .ok hb →
      listStartsWith v.interface_type scsiTag = true →
      ¬ ((List.range 7).all (fun k => leByte v.device_path (1 + k) == 0) = true) →
      DevicePathInformation.tryFromRaw v = .error ⟨.DevicePathInformation,
        .CantReadField "SCSI device path reserved bytes" .InvalidValuesForReservedBits⟩) ∧
    (∀ (v : DevicePathInformationRaw) (hb : HostBus), hostBusOf v = .ok hb →
      listStartsWith v.interface_type usbTag = true →
      ¬ ((List.range 7).all (fun k => leByte v.device_path (1 + k) == 0) = true) →
      DevicePathInformation.tryFromRaw v = .error ⟨.DevicePathInformation,
        .CantReadField "USB device path reserved bytes" .InvalidValuesForReservedBits⟩) ∧
    (∀ (v : DevicePathInformationRaw) (hb : HostBus), hostBusOf v = .ok hb →
      listStartsWith v.interface_type ieee1394Tag = true →
      DevicePathInformation.tryFromRaw v = .ok ⟨hb, .Ieee1394 v.device_path⟩) ∧
    (∀ (v : DevicePathInformationRaw) (hb : HostBus), hostBusOf v = .ok hb →
      listStartsWith v.interface_type fibreTag = true →
      DevicePathInformation.tryFromRaw v = .ok ⟨hb, .Fibre (leByte v.device_path 0)⟩) := by
  refine ⟨?_, ?_, ?_, ?_, ?_, ?_, ?_⟩
  · intro v hpci hz
    have hhb : hostBusOf v = .error ⟨.DevicePathInformation,
        .CantReadField "PCI interface path reserved bytes" .InvalidValuesForReservedBits⟩ := by
      unfold hostBusOf
      rw [if_pos hpci, if_neg hz]
    unfold DevicePathInformation.tryFromRaw
    rw [hhb]
  · intro v hisa hnp hz
    have hhb : hostBusOf v = .error ⟨.DevicePathInformation,
        .CantReadField "ISA interface path reserved bytes" .InvalidValuesForReservedBits⟩ := by
      unfold hostBusOf
      rw [if_neg hnp, if_pos hisa, if_neg hz]
    unfold DevicePathInformation.tryFromRaw
    rw [hhb]
  · intro v hb hhb hata hz
    have hif : interfaceOf v = .error ⟨.DevicePathInformation,
        .CantReadField "ATA device path reserved bytes" .InvalidValuesForReservedBits⟩ := by
      unfold interfaceOf
      rw [if_pos hata, if_neg hz]
    unfold DevicePathInformation.tryFromRaw
    rw [hhb, hif]
  · intro v hb hhb hscsi hz
    have hif : interfaceOf v = .error ⟨.DevicePathInformation,
        .CantReadField "SCSI device path reserved bytes" .InvalidValuesForReservedBits⟩ := by
      unfold interfaceOf
      rw [if_neg (tag_no_match _ scsiTag ataTag hscsi 3 (by decide) (by decide) (by decide)),
        if_neg (tag_no_match _ scsiTag atapiTag hscsi 4 (by decide) (by decide) (by decide)),
        if_pos hscsi, if_neg hz]
    unfold DevicePathInformation.tryFromRaw
    rw [hhb, hif]
  · intro v hb hhb husb hz
    have hif : interfaceOf v = .error ⟨.DevicePathInformation,
        .CantReadField "USB device path reserved bytes" .InvalidValuesForReservedBits⟩ := by
      unfold interfaceOf
      rw [if_neg (tag_no_match _ usbTag ataTag husb 3 (by decide) (by decide) (by decide)),
        if_neg (tag_no_match _ usbTag atapiTag husb 3 (by decide) (by decide) (by decide)),
        if_neg (tag_no_match _ usbTag scsiTag husb 3 (by decide) (by decide) (by decide)),
        if_pos husb, if_neg hz]
    unfold DevicePathInformation.tryFromRaw
    rw [hhb, hif]
  · intro v hb hhb h1394
    have hif : interfaceOf v = .ok (.Ieee1394 v.device_path) := by
      unfold interfaceOf
      rw [if_neg (tag_no_match _ ieee1394Tag ataTag h1394 3 (by decide) (by decide) (by decide)),
        if_neg (tag_no_match _ ieee1394Tag atapiTag h1394 4 (by decide) (by decide) (by decide)),
        if_neg (tag_no_match _ ieee1394Tag scsiTag h1394 4 (by decide) (by decide) (by decide)),
        if_neg (tag_no_match _ ieee1394Tag usbTag h1394 3 (by decide) (by decide) (by decide)),
        if_pos h1394]
    unfold DevicePathInformation.tryFromRaw
    rw [hhb, hif]
  · intro v hb hhb hfib
    have hif : interfaceOf v = .ok (.Fibre (leByte v.device_path 0)) := by
      unfold interfaceOf
      rw [if_neg (tag_no_match _ fibreTag ataTag hfib 3 (by decide) (by decide) (by decide)),
        if_neg (tag_no_match _ fibreTag atapiTag hfib 5 (by decide) (by decide) (by decide)),
        if_neg (tag_no_match _ fibreTag scsiTag hfib 4 (by decide) (by decide) (by decide)),
        if_neg (tag_no_match _ fibreTag usbTag hfib 3 (by decide) (by decide) (by decide)),
        if_neg (tag_no_match _ fibreTag ieee1394Tag hfib 4 (by decide) (by decide) (by decide)),
        if_pos hfib]
    unfold DevicePathInformation.tryFromRaw
    rw [hhb, hif]

/-- C5 witness raw record: valid PCI host bus, ATA interface with a nonzero
trailing device-path byte. -/
def ataBadRaw : DevicePathInformationRaw :=
  { fibreRaw with
      interface_type := [0x41, 0x54, 0x41, 0x20, 0x20, 0x20, 0x20, 0x20]
      device_path := 0x0100 }

/-- C5 witness: the amended theorem applied to concrete records — the ATA
variant rejects a nonzero trailing device-path byte with the reserved-bits
error, and the FIBRE variant accepts one. -/
theorem c5_reserved_trailing_bytes_per_variant_witness :
    DevicePathInformation.tryFromRaw ataBadRaw = .error ⟨.DevicePathInformation,
      .CantReadField "ATA device path reserved bytes" .InvalidValuesForReservedBits⟩ ∧
    DevicePathInformation.tryFromRaw fibreRaw = .ok ⟨.Pci 0 1 1, .Fibre 1⟩ := by
  constructor
  · exact c5_reserved_trailing_bytes_per_variant.2.2.1 ataBadRaw (.Pci 0 1 1)
      (by decide) (by decide) (by decide)
  · exact c5_reserved_trailing_bytes_per_variant.2.2.2.2.2.2 fibreRaw (.Pci 0 1 1)
      (by decide) (by decide)

/-! ## C2 -/

/-- A 40-byte 32-bit section entry whose type word is 12 — one of the two
gap values the type resolution rejects. -/
def c2BadEntry : List Nat := [0, 0, 0, 0, 12, 0, 0, 0] ++ List.replicate 32 0

/-- A 40-byte 32-bit section entry of type 1 (`Progbits`), which decodes. -/
def c2GoodEntry : List Nat := [0, 0, 0, 0, 1, 0, 0, 0] ++ List.replicate 32 0

/-- Section table with a bad first entry followed by a good second entry. -/
def c2Bytes : List Nat := c2BadEntry ++ c2GoodEntry

/-- The error item produced for the bad entry. -/
def c2TypeErr : BootElfError :=
  ⟨.SectionHeaderEntry 40, .CantReadField "type" (.InvalidValue 12)⟩

/-- C2: refutation of the claim as stated.  Over the validated two-entry
32-bit section table `c2Bytes`, whose first entry has unresolvable type 12
and whose second entry decodes fine, the iterator yields the same error item
at least three times — more than `entry_count = 2` items, and iteration never
reaches the (decodable) second entry, because `next` advances its position
only on success. -/
theorem c2_error_item_repeats_forever :
    SectionHeaderEntries.new c2Bytes .Elf32 2 = .ok ⟨c2Bytes, .Elf32, 0⟩ ∧
    (SectionHeaderEntries.mk c2Bytes .Elf32 0).pull 3 =
      [.error c2TypeErr, .error c2TypeErr, .error c2TypeErr] ∧
    (SHEntry.tryFromBytes (c2Bytes.drop 40) .Elf32 (.SectionHeaderEntry 40)).isOk = true := by
  refine ⟨by decide, by decide, by decide⟩

/-- Totality of the section iterator on all-decodable tables, stated for an
arbitrary reading position `(n - k) * entry_size` with `k` entries left. -/
theorem sh_pull_exact (cls : ElfClass) (bytes : List Nat) (n : Nat)
    (hlen : bytes.length = n * eszSH cls)
    (hok : ∀ i < n, (SHEntry.tryFromBytes (bytes.drop (i * eszSH cls)) cls
      (.SectionHeaderEntry (eszSH cls))).isOk = true) :
    ∀ k, k ≤ n → ∀ fuel, k ≤ fuel →
      ((SectionHeaderEntries.mk bytes cls ((n - k) * eszSH cls)).pull fuel).length = k ∧
      ∀ x ∈ (SectionHeaderEntries.mk bytes cls ((n - k) * eszSH cls)).pull fuel,
        x.isOk = true := by
  have hesz : 0 < eszSH cls := by cases cls <;> decide
  intro k
  induction k with
  | zero =>
    intro _ fuel _
    have hnone : (SectionHeaderEntries.mk bytes cls ((n - 0) * eszSH cls)).next = none := by
      unfold SectionHeaderEntries.next
      rw [if_pos (by simp [hlen])]
    cases fuel with
    | zero => exact ⟨rfl, by simp [SectionHeaderEntries.pull]⟩
    | succ f =>
      unfold SectionHeaderEntries.pull
      rw [hnone]
      exact ⟨rfl, by simp⟩
  | succ k ih =>
    intro hkn fuel hkf
    cases fuel with
    | zero => omega
    | succ f =>
      have hi : n - (k + 1) < n := by omega
      obtain ⟨e, he⟩ := exceptIsOk_exists _ (hok (n - (k + 1)) hi)
      have hread : (n - (k + 1)) * eszSH cls < bytes.length := by
        rw [hlen]
        exact (Nat.mul_lt_mul_right hesz).mpr hi
      have hstep : (SectionHeaderEntries.mk bytes cls ((n - (k + 1)) * eszSH cls)).next =
          some (.ok e, SectionHeaderEntries.mk bytes cls ((n - k) * eszSH cls)) := by
        unfold SectionHeaderEntries.next
        rw [if_neg (by simpa using Nat.not_le.mpr hread), he]
        have harith : (n - (k + 1)) * eszSH cls + eszSH cls = (n - k) * eszSH cls := by
          have h1 : n - (k + 1) + 1 = n - k := by omega
          calc (n - (k + 1)) * eszSH cls + eszSH cls
              = (n - (k + 1) + 1) * eszSH cls := by ring
            _ = (n - k) * eszSH cls := by rw [h1]
        simp [harith]
      unfold SectionHeaderEntries.pull
      rw [hstep]
      obtain ⟨ihlen, ihmem⟩ := ih (by omega) f (by omega)
      refine ⟨by simpa using ihlen, ?_⟩
      intro x hx
      rcases List.mem_cons.mp hx with hx | hx
      · subst hx; rfl
      · exact ihmem x hx

/-- Totality of the program-header iterator on all-decodable tables, same
shape as `sh_pull_exact`. -/
theorem ph_pull_exact (cls : ElfClass) (bytes : List Nat) (n : Nat)
    (hlen : bytes.length = n * eszPH cls)
    (hok : ∀ i < n, (PHEntry.tryFromBytes (bytes.drop (i * eszPH cls)) cls
      (.ProgramHeaderEntry (eszPH cls))).isOk = true) :
    ∀ k, k ≤ n → ∀ fuel, k ≤ fuel →
      ((ProgramHeaderEntries.mk bytes cls ((n - k) * eszPH cls)).pull fuel).length = k ∧
      ∀ x ∈ (ProgramHeaderEntries.mk bytes cls ((n - k) * eszPH cls)).pull fuel,
        x.isOk = true := by
  have hesz : 0 < eszPH cls := by cases cls <;> decide
  intro k
  induction k with
  | zero =>
    intro _ fuel _
    have hnone : (ProgramHeaderEntries.mk bytes cls ((n - 0) * eszPH cls)).next = none := by
      unfold ProgramHeaderEntries.next
      rw [if_pos (by simp [hlen])]
    cases fuel with
    | zero => exact ⟨rfl, by simp [ProgramHeaderEntries.pull]⟩
    | succ f =>
      unfold ProgramHeaderEntries.pull
      rw [hnone]
      exact ⟨rfl, by simp⟩
  | succ k ih =>
    intro hkn fuel hkf
    cases fuel with
    | zero => omega
    | succ f =>
      have hi : n - (k + 1) < n := by omega
      obtain ⟨e, he⟩ := exceptIsOk_exists _ (hok (n - (k + 1)) hi)
      have hread : (n - (k + 1)) * eszPH cls < bytes.length := by
        rw [hlen]
        exact (Nat.mul_lt_mul_right hesz).mpr hi
      have hstep : (ProgramHeaderEntries.mk bytes cls ((n - (k + 1)) * eszPH cls)).next =
          some (.ok e, ProgramHeaderEntries.mk bytes cls ((n - k) * eszPH cls)) := by
        unfold ProgramHeaderEntries.next
        rw [if_neg (by simpa using Nat.not_le.mpr hread), he]
        have harith : (n - (k + 1)) * eszPH cls + eszPH cls = (n - k) * eszPH cls := by
          have h1 : n - (k + 1) + 1 = n - k := by omega
          calc (n - (k + 1)) * eszPH cls + eszPH cls
              = (n - (k + 1) + 1) * eszPH cls := by ring
            _ = (n - k) * eszPH cls := by rw [h1]
        simp [harith]
      unfold ProgramHeaderEntries.pull
      rw [hstep]
      obtain ⟨ihlen, ihmem⟩ := ih (by omega) f (by omega)
      refine ⟨by simpa using ihlen, ?_⟩
      intro x hx
      rcases List.mem_cons.mp hx with hx | hx
      · subst hx; rfl
      · exact ihmem x hx

/-- C2 (amended): over a table whose every entry decodes, either iterator
yields exactly `entry_count` items — all successes — and each accessor call
produces a fresh sequence starting at position 0; but an entry that fails to
decode yields its error item without advancing the iterator, so the same
error repeats on every subsequent `next` call and later entries are never
reached (iteration does not continue past an error item, contrary to the
original claim). -/
theorem c2_iteration_totality_and_stuck_error :
    (∀ cls bytes n fuel, bytes.length = n * eszSH cls → n ≤ fuel →
      (∀ i < n, (SHEntry.tryFromBytes (bytes.drop (i * eszSH cls)) cls
        (.SectionHeaderEntry (eszSH cls))).isOk = true) →
      ((SectionHeaderEntries.mk bytes cls 0).pull fuel).length = n ∧
      ∀ x ∈ (SectionHeaderEntries.mk bytes cls 0).pull fuel, x.isOk = true) ∧
    (∀ cls bytes n fuel, bytes.length = n * eszPH cls → n ≤ fuel →
      (∀ i < n, (PHEntry.tryFromBytes (bytes.drop (i * eszPH cls)) cls
        (.ProgramHeaderEntry (eszPH cls))).isOk = true) →
      ((ProgramHeaderEntries.mk bytes cls 0).pull fuel).length = n ∧
      ∀ x ∈ (ProgramHeaderEntries.mk bytes cls 0).pull fuel, x.isOk = true) ∧
    (∀ (it : SectionHeaderEntries) e it2, it.next = some (.error e, it2) → it2 = it) ∧
    (∀ (it : ProgramHeaderEntries) e it2, it.next = some (.error e, it2) → it2 = it) ∧
    (∀ (f : File) it, File.sections f = some it → it.bytes_read_so_far = 0) ∧
    (∀ (f : File) it, File.program_headers f = some it → it.bytes_read_so_far = 0) := by
  refine ⟨?_, ?_, ?_, ?_, ?_, ?_⟩
  · intro cls bytes n fuel hlen hfuel hok
    have := sh_pull_exact cls bytes n hlen hok n le_rfl fuel hfuel
    rwa [Nat.sub_self, Nat.zero_mul] at this
  · intro cls bytes n fuel hlen hfuel hok
    have := ph_pull_exact cls bytes n hlen hok n le_rfl fuel hfuel
    rwa [Nat.sub_self, Nat.zero_mul] at this
  · intro it e it2 h
    unfold SectionHeaderEntries.next at h
    split at h
    · cases h
    · rcases hd : SHEntry.tryFromBytes (it.bytes.drop it.bytes_read_so_far) it.cls
          (.SectionHeaderEntry (eszSH it.cls)) with err | x
      · rw [hd] at h
        simp only [Option.some.injEq, Prod.mk.injEq] at h
        exact h.2.symm
      · rw [hd] at h
        simp only [Option.some.injEq, Prod.mk.injEq] at h
        cases h.1
  · intro it e it2 h
    unfold ProgramHeaderEntries.next at h
    split at h
    · cases h
    · rcases hd : PHEntry.tryFromBytes (it.bytes.drop it.bytes_read_so_far) it.cls
          (.ProgramHeaderEntry (eszPH it.cls)) with err | x
      · rw [hd] at h
        simp only [Option.some.injEq, Prod.mk.injEq] at h
        exact h.2.symm
      · rw [hd] at h
        simp only [Option.some.injEq, Prod.mk.injEq] at h
        cases h.1
  · intro f it h
    unfold File.sections at h
    split at h
    · cases h
    split at h
    · cases h
    rcases hnew : SectionHeaderEntries.new
        ((f.bytes.drop f.header.section_header_offset).take
          (f.header.section_header_entry_size * f.header.section_header_entries % 65536))
        f.header.cls f.header.section_header_entries with e | it'
    · rw [hnew] at h; cases h
    · rw [hnew] at h
      injection h with h2
      subst h2
      unfold SectionHeaderEntries.new at hnew
      split at hnew
      · cases hnew
      · injection hnew with h3
        rw [← h3]
  · intro f it h
    unfold File.program_headers at h
    split at h
    · cases h
    split at h
    · cases h
    rcases hnew : ProgramHeaderEntries.new
        ((f.bytes.drop f.header.program_header_offset).take
          (f.header.program_header_entry_size * f.header.program_header_entries % 65536))
        f.header.cls f.header.program_header_entries with e | it'
    · rw [hnew] at h; cases h
    · rw [hnew] at h
      injection h with h2
      subst h2
      unfold ProgramHeaderEntries.new at hnew
      split at hnew
      · cases hnew
      · injection hnew with h3
        rw [← h3]

/-- A section table of two decodable entries, for the witness. -/
def c2GoodBytes : List Nat := c2GoodEntry ++ c2GoodEntry

/-- C2 amended-claim witness: the totality arm applied to a concrete
two-entry all-decodable 32-bit section table — the iterator yields exactly
2 items, all successes. -/
theorem c2_iteration_totality_and_stuck_error_witness :
    ((SectionHeaderEntries.mk c2GoodBytes .Elf32 0).pull 2).length = 2 ∧
    ∀ x ∈ (SectionHeaderEntries.mk c2GoodBytes .Elf32 0).pull 2, x.isOk = true :=
  c2_iteration_totality_and_stuck_error.1 .Elf32 c2GoodBytes 2 2
    (by decide) (by decide) (by decide)

end BlogOs
